import Mathlib

/-
Verification development for the ranking/swipe frontend (script.js).

Shallow embedding conventions:
* JS numbers are modelled as rationals (ℚ); `parseFloat`/`parseInt` results
  that may be NaN are modelled as `Option ℚ` / `Option ℤ` with `none` = NaN.
* A possibly-missing JS object field is an outer `Option`, so a field whose
  raw JSON value may also fail to parse is `Option (Option ℚ)`.
* JS objects used as string-keyed maps are association lists
  `List (String × β)` with first-match lookup (object keys are unique).
* `Math.random`-driven choices (`randomNormal`, `shuffleArray`) are modelled
  by explicit oracle parameters: `z : String → ℚ` supplies the one
  standard-normal draw per title used by `thompsonSample`, and `r : ℕ → ℕ`
  supplies the Fisher-Yates indices of `shuffleArray` (taken mod `i+1`,
  matching `Math.floor(Math.random()*(i+1)) ∈ [0, i]`).
* DOM rendering, logging and `fetch`/persistence calls are I/O and are not
  part of the embedded state transitions.
-/

/-- An item of the catalog / swipe list.  Only the fields the embedded
operations read are kept; a JS `undefined` string field is `""`. -/
structure Movie where
  title : String
  display : String := ""
  image : String := ""
  imageAbsolute : String := ""
  addedBy : String := ""
  source : String := ""
deriving DecidableEq

/-- A normalized belief entry (output of `ensureTsRating`). -/
structure Rating where
  ts_mu : ℚ
  ts_sigma : ℚ
  games : ℤ
  wins : ℤ
deriving DecidableEq

/-- A raw (unvalidated) ratings entry as it arrives in a loaded state.
Outer `none` = field absent, inner `none` = value parses to NaN. -/
structure RawRating where
  ts_mu : Option (Option ℚ) := none
  rating : Option (Option ℚ) := none
  ts_sigma : Option (Option ℚ) := none
  games : Option (Option ℤ) := none
  wins : Option (Option ℤ) := none
deriving DecidableEq

/-- The literal `0.0001` floor used in `ensureTsRating`. -/
def sigmaFloor : ℚ := 1 / 10000

/-- script.js `ensureTsRating(entry)` (lines 1344-1354), with the current
`TS_MU` / `TS_SIGMA` configuration passed explicitly. -/
def ensureTsRating (muCfg sigmaCfg : ℚ) (entry : Option RawRating) : Rating :=
  let base := entry.getD {}
  let mu : Option ℚ :=
    match base.ts_mu with
    | some v => v
    | none =>
      match base.rating with
      | some v => v
      | none => some muCfg
  let sigma : Option ℚ :=
    match base.ts_sigma with
    | some v => v
    | none => some sigmaCfg
  { ts_mu := mu.getD muCfg
    ts_sigma :=
      match sigma with
      | none => sigmaCfg
      | some q => max q sigmaFloor
    games := (match base.games with | some v => v | none => some 0).getD 0
    wins := (match base.wins with | some v => v | none => some 0).getD 0 }

/-- First-match association-list lookup for raw ratings objects. -/
def lookupRaw (incoming : List (String × RawRating)) (t : String) : Option RawRating :=
  (incoming.find? (fun p => decide (p.1 = t))).map (fun p => p.2)

/-- The ratings normalization of `applyState` (script.js lines 1122-1128):
every current movie title gets `ensureTsRating` of its incoming entry, and
incoming entries for titles not in the movie list are kept (normalized). -/
def applyStateRatings (muCfg sigmaCfg : ℚ) (movies : List Movie)
    (incoming : List (String × RawRating)) : List (String × Rating) :=
  let fromMovies := movies.map
    (fun m => (m.title, ensureTsRating muCfg sigmaCfg (lookupRaw incoming m.title)))
  let extras := (incoming.filter
      (fun p => !(movies.any (fun m => decide (m.title = p.1))))).map
    (fun p => (p.1, ensureTsRating muCfg sigmaCfg (some p.2)))
  fromMovies ++ extras

/-- `movieByTitle` (script.js line 1121): `Object.fromEntries` keeps the last
entry per key, hence the lookup over the reversed list. -/
def movieByTitle (movies : List Movie) (t : String) : Option Movie :=
  movies.reverse.find? (fun m => decide (m.title = t))

/-- First-match lookup in the normalized ratings map. -/
def lookupRating (ratings : List (String × Rating)) (t : String) : Option Rating :=
  (ratings.find? (fun p => decide (p.1 = t))).map (fun p => p.2)

/-- The ranker state touched by `pickPair`.  `currentPair` components are
`Option Movie` because `pickPair` stores raw `movieByTitle` lookups, which
can be `undefined` (`none`). -/
structure RankState where
  movies : List Movie
  ratings : List (String × Rating)
  currentPair : Option (Option Movie × Option Movie)
deriving DecidableEq

/-- script.js `thompsonSample(title)` (lines 1356-1362): one sample
`μ + z·σ` per title, `-Infinity` (here `⊥`) when the title has no rating.
The `randomNormal()` draw is the oracle value `z title`. -/
def thompsonSample (ratings : List (String × Rating)) (z : String → ℚ)
    (title : String) : WithBot ℚ :=
  match lookupRating ratings title with
  | none => ⊥
  | some entry => ((entry.ts_mu + z title * entry.ts_sigma : ℚ) : WithBot ℚ)

/-- Comparator of `sampled.sort((a, b) => b.score - a.score)`: descending by
sampled score. -/
def sampleGE (a b : String × WithBot ℚ) : Prop := b.2 ≤ a.2

instance : DecidableRel sampleGE :=
  fun a b => inferInstanceAs (Decidable (b.2 ≤ a.2))

instance : IsTotal (String × WithBot ℚ) sampleGE :=
  ⟨fun a b => le_total b.2 a.2⟩

instance : IsTrans (String × WithBot ℚ) sampleGE :=
  ⟨fun _ _ _ h1 h2 => le_trans h2 h1⟩

/-- The `sampled` list of `pickPair` (line 1376): one scored entry per
ratings key. -/
def sampledOf (z : String → ℚ) (s : RankState) : List (String × WithBot ℚ) :=
  s.ratings.map (fun p => (p.1, thompsonSample s.ratings z p.1))

/-- The `sampled` list after the descending sort of line 1377. -/
def sortedSampled (z : String → ℚ) (s : RankState) : List (String × WithBot ℚ) :=
  List.insertionSort sampleGE (sampledOf z s)

/-- The fresh-pair branch of `pickPair` (script.js lines 1376-1381): sample
every ratings key, sort descending, take the top two, store their
`movieByTitle` lookups as the current pair. -/
def pickFresh (z : String → ℚ) (s : RankState) : RankState :=
  match sortedSampled z s with
  | t1 :: t2 :: _ =>
    { s with currentPair := some (movieByTitle s.movies t1.1, movieByTitle s.movies t2.1) }
  | _ => s

/-- Lines 1370-1374 of `pickPair`: if both `movieByTitle` lookups of the
stored pair succeed, re-store the looked-up movies; otherwise fall through to
a fresh pick. -/
def pickPairLookup (z : String → ℚ) (s : RankState) :
    Option Movie → Option Movie → RankState
  | some lm, some rm => { s with currentPair := some (some lm, some rm) }
  | _, _ => pickFresh z s

/-- Lines 1366-1375 of `pickPair`: inspect the stored pair (`left && ...`
falsy checks) and dispatch on the two `movieByTitle` lookups. -/
def pickPairCheck (z : String → ℚ) (s : RankState) :
    Option (Option Movie × Option Movie) → RankState
  | some (some l, some r) =>
    pickPairLookup z s (movieByTitle s.movies l.title) (movieByTitle s.movies r.title)
  | _ => pickFresh z s

/-- script.js `pickPair()` (lines 1364-1382). -/
def pickPair (z : String → ℚ) (s : RankState) : RankState :=
  if s.movies.length < 2 then s
  else pickPairCheck z s s.currentPair

/-- The validity test at the head of `pickPair` (lines 1366-1370): the stored
pair is kept iff both components exist and their titles are still in
`movieByTitle`. -/
def pairStillValid (s : RankState) : Bool :=
  match s.currentPair with
  | some (some l, some r) =>
    (movieByTitle s.movies l.title).isSome && (movieByTitle s.movies r.title).isSome
  | _ => false

/-- A raw incoming `pairCoverage` object; fields may be absent. -/
structure RawCoverage where
  coveredPairs : Option ℚ := none
  totalPairs : Option ℚ := none
deriving DecidableEq

/-- The normalized coverage snapshot held by the frontend. -/
structure Coverage where
  coveredPairs : ℚ
  totalPairs : ℚ
  ratio : ℚ
deriving DecidableEq

/-- The overall-coverage normalization of `applyState`
(script.js lines 1135-1139). -/
def applyStateCoverage (rawOpt : Option RawCoverage) (nMovies : ℕ) : Coverage :=
  let raw := rawOpt.getD { coveredPairs := some 0, totalPairs := some 0 }
  let inferredTotalPairs := raw.totalPairs.getD
    (if 1 < nMovies then ((nMovies : ℚ) * ((nMovies : ℚ) - 1)) / 2 else 0)
  let totalPairsOverall := raw.totalPairs.getD inferredTotalPairs
  let coveredOverall := raw.coveredPairs.getD 0
  { coveredPairs := coveredOverall
    totalPairs := totalPairsOverall
    ratio := if totalPairsOverall = 0 then 0 else coveredOverall / totalPairsOverall }

/-- Modelled from the spec: the backend (Flask `server.py`, not under src/)
produces the `RankSnapshot`; per §4.3 and §8 a snapshot for a catalog of `n`
items with no votes cast carries `coveredPairs = 0` and
`totalPairs = n·(n-1)/2`. -/
def noVoteCoverage (n : ℕ) : RawCoverage :=
  { coveredPairs := some 0, totalPairs := some (((n : ℚ) * ((n : ℚ) - 1)) / 2) }

/-- Modelled from the spec: step 4 of the backend pairwise update (§4.1,
`applyOutcome` lives in `server.py`, not under src/):
`σ'² = σ²·max(1 − (σ²/c²)·w, ε)`.  The quantities `c² = 2β² + σw² + σl²` and
`w = v·(v + t)` are passed as values. -/
def sigmaSqUpdate (sigmaSq cSq w eps : ℚ) : ℚ :=
  sigmaSq * max (1 - sigmaSq / cSq * w) eps

/-- Successive σ² updates over a list of games, each supplying its own
`(c², w)` pair. -/
def sigmaSqUpdates (eps : ℚ) (games : List (ℚ × ℚ)) (sigmaSq : ℚ) : ℚ :=
  games.foldl (fun sq g => sigmaSqUpdate sq g.1 g.2 eps) sigmaSq

/-- First-match association-list lookup (JS object read). -/
def lookupAssoc {β : Type} (l : List (String × β)) (k : String) : Option β :=
  (l.find? (fun p => decide (p.1 = k))).map (fun p => p.2)

/-- JS object write: update the key in place if present, else append it. -/
def setAssoc {β : Type} (l : List (String × β)) (k : String) (v : β) :
    List (String × β) :=
  if l.any (fun p => decide (p.1 = k)) then
    l.map (fun p => if p.1 = k then (k, v) else p)
  else l ++ [(k, v)]

/-- JS `Set.add`: append the element unless already present. -/
def addToSet (l : List String) (t : String) : List String :=
  if t ∈ l then l else l ++ [t]

/-- JS `new Set(list)`: insert the elements left to right, keeping first
occurrences. -/
def jsSetOfList (l : List String) : List String := l.foldl addToSet []

/-- The single swap `[a[i], a[j]] = [a[j], a[i]]` of `shuffleArray`. -/
def listSwap {α : Type} (l : List α) (i j : ℕ) : List α :=
  match l[i]?, l[j]? with
  | some x, some y => (l.set i y).set j x
  | _, _ => l

/-- The Fisher-Yates loop of `shuffleArray`, descending from index `i`.
`r (i+1) % (i+2)` stands for `Math.floor(Math.random() * (i + 2))`. -/
def fyAux {α : Type} (r : ℕ → ℕ) : List α → ℕ → List α
  | a, 0 => a
  | a, i + 1 => fyAux r (listSwap a (i + 1) (r (i + 1) % (i + 2))) i

/-- script.js `shuffleArray(arr)` (lines 2439-2446). -/
def shuffleArray {α : Type} (r : ℕ → ℕ) (l : List α) : List α :=
  fyAux r l (l.length - 1)

/-- A normalized per-participant swipe progress record. -/
structure Progress where
  idx : ℕ
  done : Bool
  order : List String
deriving DecidableEq

/-- A raw per-participant progress record from a server snapshot:
`idx` may be absent/NaN, `order` may be absent or not an array. -/
structure RawProgress where
  idx : Option ℤ := none
  done : Bool := false
  order : Option (List String) := none
deriving DecidableEq

/-- The swipe-side globals of script.js (lines 20-40). -/
structure SwipeState where
  swipeSelectedMovies : List Movie
  swipeLikes : List (String × List String)
  swipeMatches : List String
  swipePersons : List String
  swipePersonCount : ℕ
  swipeCurrentPerson : String
  swipeCurrentIndex : ℕ
  swipeOrder : List Movie
  swipeCompleted : Bool
  swipeProgress : List (String × Progress)
  swipeLocked : Bool
  matchQueue : List String
  seenMatches : List String
  matchModalOpen : Bool
deriving DecidableEq

/-- script.js `getSwipeMovieByTitle(title)` (lines 2465-2468): `none` for a
falsy title, otherwise the found movie or a stub object. -/
def getSwipeMovieByTitle (selected : List Movie) (title : String) : Option Movie :=
  if title = "" then none
  else some ((selected.find? (fun m => decide (m.title = title))).getD
    { title := title, display := title })

/-- script.js `titlesToMovieOrder(titles)` (lines 2470-2472). -/
def titlesToMovieOrder (selected : List Movie) (titles : List String) : List Movie :=
  titles.filterMap (getSwipeMovieByTitle selected)

/-- script.js `showMatchModal(title)` (lines 1850-1866), DOM parts dropped:
the modal opens and the title joins the session-wide seen set. -/
def showMatchModal (title : String) (s : SwipeState) : SwipeState :=
  { s with matchModalOpen := true, seenMatches := addToSet s.seenMatches title }

/-- script.js `processMatchQueue()` (lines 1843-1848). -/
def processMatchQueue (s : SwipeState) : SwipeState :=
  if s.matchModalOpen then s
  else
    match s.matchQueue with
    | [] => s
    | next :: rest =>
      if next = "" then { s with matchQueue := rest }
      else showMatchModal next { s with matchQueue := rest }

/-- script.js `enqueueMatchModal(title)` (lines 1837-1841). -/
def enqueueMatchModal (title : String) (s : SwipeState) : SwipeState :=
  if title = "" ∨ title ∈ s.seenMatches then s
  else processMatchQueue { s with matchQueue := s.matchQueue ++ [title] }

/-- script.js `closeMatchModal()` (lines 1868-1872). -/
def closeMatchModal (s : SwipeState) : SwipeState :=
  processMatchQueue { s with matchModalOpen := false }

/-- script.js `recordSwipeLike(movie, person)` (lines 2262-2271). -/
def recordSwipeLike (movie person : String) (s : SwipeState) : SwipeState :=
  let likes1 := if (lookupAssoc s.swipeLikes movie).isSome then s.swipeLikes
    else s.swipeLikes ++ [(movie, [])]
  let cur := (lookupAssoc likes1 movie).getD []
  let likes2 := if person ∈ cur then likes1 else setAssoc likes1 movie (cur ++ [person])
  let cur2 := (lookupAssoc likes2 movie).getD []
  let s1 := { s with swipeLikes := likes2 }
  if s.swipePersonCount ≤ cur2.length then
    enqueueMatchModal movie { s1 with swipeMatches := addToSet s1.swipeMatches movie }
  else s1

/-- script.js `recordSwipeDislike(movie, person)` (lines 2273-2277). -/
def recordSwipeDislike (movie person : String) (s : SwipeState) : SwipeState :=
  match lookupAssoc s.swipeLikes movie with
  | none => s
  | some cur =>
    let likes1 := setAssoc s.swipeLikes movie (cur.filter (fun p => decide (¬ p = person)))
    { s with swipeLikes := likes1 }

/-- script.js `randomOrderTitles()` (lines 2474-2476). -/
def randomOrderTitles (r : ℕ → ℕ) (selected : List Movie) : List String :=
  shuffleArray r (selected.map (fun m => m.title))

/-- script.js `resetSwipeProgressAll()` (lines 2004-2015), with a shuffle
oracle per person (`rho p`) and one for the current-person fallback (`rf`). -/
def resetSwipeProgressAll (rho : String → ℕ → ℕ) (rf : ℕ → ℕ)
    (s : SwipeState) : SwipeState :=
  let prog := s.swipePersons.map
    (fun p => (p, Progress.mk 0 false (randomOrderTitles (rho p) s.swipeSelectedMovies)))
  let current := (lookupAssoc prog s.swipeCurrentPerson).getD
    (Progress.mk 0 false (randomOrderTitles rf s.swipeSelectedMovies))
  let order := titlesToMovieOrder s.swipeSelectedMovies current.order
  { s with
    swipeProgress := prog
    swipeOrder := order
    swipeCurrentIndex := current.idx
    swipeCompleted := current.done || decide (order.length = 0) }

/-- script.js `applySwipeProgress(person)` (lines 2029-2041). -/
def applySwipeProgress (person : String) (rf : ℕ → ℕ) (s : SwipeState) : SwipeState :=
  if person = "" then s
  else
    let needFresh :=
      match lookupAssoc s.swipeProgress person with
      | none => true
      | some st => decide (st.order.length = 0)
    let prog := if needFresh then
        setAssoc s.swipeProgress person
          (Progress.mk 0 false (randomOrderTitles rf s.swipeSelectedMovies))
      else s.swipeProgress
    let st := (lookupAssoc prog person).getD (Progress.mk 0 false [])
    let order := titlesToMovieOrder s.swipeSelectedMovies st.order
    let maxIdx := order.length
    let idx := min st.idx maxIdx
    { s with
      swipeProgress := prog
      swipeOrder := order
      swipeCurrentIndex := idx
      swipeCompleted := st.done || decide (maxIdx = 0) || decide (maxIdx ≤ idx) }

/-- Lines 2074-2077 of `normalizeSwipeProgress`: keep the known titles of the
stored order, append the missing ones shuffled, and reshuffle from scratch if
that leaves nothing. -/
def normalizedOrder (rhoMiss rhoFall : ℕ → ℕ) (titles rawOrder : List String) :
    List String :=
  let order0 := rawOrder.filter (fun t => decide (t ∈ titles))
  let missing := titles.filter (fun t => decide (¬ t ∈ order0))
  let order1 := if missing.length ≠ 0 then order0 ++ shuffleArray rhoMiss missing
    else order0
  if order1.length = 0 then shuffleArray rhoFall titles else order1

/-- script.js `normalizeSwipeProgress` body for one participant
(lines 2073-2079). -/
def normalizeRawProgress (rhoMiss rhoFall : ℕ → ℕ) (titles : List String)
    (st : RawProgress) : Progress :=
  let order := normalizedOrder rhoMiss rhoFall titles (st.order.getD [])
  let idx := (min (max (st.idx.getD 0) 0) (order.length : ℤ)).toNat
  { idx := idx, done := st.done || decide (order.length ≤ idx), order := order }

/-- script.js `normalizeSwipeProgress(progress, persons, titles)`
(lines 2070-2082).  At its call site `randomOrderTitles()` shuffles exactly
`titles`, which is what `rhoFall` feeds here. -/
def normalizeSwipeProgress (rhoM rhoF : String → ℕ → ℕ)
    (progress : List (String × RawProgress)) (persons : List String)
    (titles : List String) : List (String × Progress) :=
  persons.map (fun p =>
    (p, normalizeRawProgress (rhoM p) (rhoF p) titles
      ((lookupAssoc progress p).getD {})))

/-- A raw swipe snapshot as served by the backend (`state` in
`applySwipeStateFromServer`); absent fields default like `state.x || y`.
The JSON field for the match list is a reserved word in Lean and is called
`matchTitles` here. -/
structure RawSwipeState where
  movies : List Movie := []
  persons : List String := []
  likes : List (String × List String) := []
  matchTitles : List String := []
  locked : Bool := false
  progress : List (String × RawProgress) := []

/-- Line 2087 of `applySwipeStateFromServer`:
`state.persons || (current persons) || default`. -/
def serverPersons (st : RawSwipeState) (s : SwipeState) : List String :=
  if st.persons.length ≠ 0 then st.persons
  else if s.swipePersons.length ≠ 0 then s.swipePersons else ["p1", "p2"]

/-- Lines 2086-2090 of `applySwipeStateFromServer`: install movies, persons,
person count, likes and the (de-duplicated) match set from the snapshot. -/
def serverBase (st : RawSwipeState) (s : SwipeState) : SwipeState :=
  { s with
    swipeSelectedMovies := st.movies
    swipePersons := serverPersons st s
    swipePersonCount := if (serverPersons st s).length = 0 then 2
      else (serverPersons st s).length
    swipeLikes := st.likes
    swipeMatches := jsSetOfList st.matchTitles }

/-- Lines 2091-2093 of `applySwipeStateFromServer`: enqueue a match modal for
every incoming match that was not already recorded. -/
def applyServerMatches (prevMatches : List String) (s1 : SwipeState) : SwipeState :=
  s1.swipeMatches.foldl
    (fun acc m => if m ∈ prevMatches then acc else enqueueMatchModal m acc) s1

/-- script.js `applySwipeStateFromServer(state)` (lines 2084-2106), DOM and
rendering calls dropped.  `normalizeMovieImage` only rewrites poster-path
fields (titles unchanged) and is omitted. -/
def applySwipeStateFromServer (st : RawSwipeState) (rhoM rhoF : String → ℕ → ℕ)
    (rf2 : ℕ → ℕ) (s : SwipeState) : SwipeState :=
  let s2 := applyServerMatches s.swipeMatches (serverBase st s)
  let s3 := { s2 with seenMatches := jsSetOfList (s2.seenMatches ++ s2.swipeMatches) }
  let s4 := { s3 with swipeLocked := st.locked }
  let titles := st.movies.map (fun m => m.title)
  let s5 := { s4 with swipeProgress := normalizeSwipeProgress rhoM rhoF st.progress (serverPersons st s) titles }
  let person1 := if s.swipeCurrentPerson ∈ serverPersons st s then s.swipeCurrentPerson
    else (serverPersons st s).headD "p1"
  let s6 := { s5 with swipeCurrentPerson := person1 }
  applySwipeProgress person1 rf2 s6

/-- The `info` object of `addSwipeMovie` (line 1876):
`swipeSuggestionsMap[displayTitle] || { title: displayTitle }`. -/
def suggestionInfo (suggestions : List (String × Movie)) (displayTitle : String) : Movie :=
  (lookupAssoc suggestions displayTitle).getD { title := displayTitle }

/-- Lines 1878-1888 of `addSwipeMovie`: build the movie object, append it to
the selected list and initialize its Like Set (kept when present). -/
def addSwipeBase (suggestions : List (String × Movie)) (displayTitle : String)
    (s : SwipeState) : SwipeState :=
  let info := suggestionInfo suggestions displayTitle
  let movieObj : Movie :=
    { title := info.title
      display := if info.display = "" then displayTitle else info.display
      image := info.image
      imageAbsolute :=
        if info.image ≠ "" && (info.image.startsWith "http:" || info.image.startsWith "https:")
        then info.image else ""
      addedBy := s.swipeCurrentPerson
      source := "manual" }
  let s1 := { s with swipeSelectedMovies := s.swipeSelectedMovies ++ [movieObj] }
  { s1 with swipeLikes :=
    if (lookupAssoc s1.swipeLikes info.title).isSome then s1.swipeLikes
    else s1.swipeLikes ++ [(info.title, [])] }

/-- script.js `addSwipeMovie(displayTitle)` (lines 1874-1893), with the
`swipeSuggestionsMap` passed explicitly. -/
def addSwipeMovie (suggestions : List (String × Movie)) (displayTitle : String)
    (rho : String → ℕ → ℕ) (rf : ℕ → ℕ) (s : SwipeState) : SwipeState :=
  if displayTitle = "" then s
  else
    let info := suggestionInfo suggestions displayTitle
    if s.swipeSelectedMovies.any (fun m => decide (m.title = info.title)) then s
    else resetSwipeProgressAll rho rf (addSwipeBase suggestions displayTitle s)

/-- Lines 1896-1898 of `removeSwipeMovie`: drop the title from the selected
list, its Like Set and the Match Set. -/
def removeSwipeBase (title : String) (s : SwipeState) : SwipeState :=
  { s with
    swipeSelectedMovies := s.swipeSelectedMovies.filter (fun m => decide (¬ m.title = title))
    swipeLikes := s.swipeLikes.filter (fun p => decide (¬ p.1 = title))
    swipeMatches := s.swipeMatches.filter (fun m => decide (¬ m = title)) }

/-- script.js `removeSwipeMovie(title)` (lines 1895-1905), DOM parts dropped. -/
def removeSwipeMovie (title : String) (rho : String → ℕ → ℕ) (rf : ℕ → ℕ)
    (s : SwipeState) : SwipeState :=
  resetSwipeProgressAll rho rf (removeSwipeBase title s)

/-- The swipe-state mutations relevant to match notifications. -/
inductive SwipeEvent where
  | like (movie person : String)
  | dislike (movie person : String)
  | applyServer (st : RawSwipeState) (rhoM rhoF : String → ℕ → ℕ) (rf2 : ℕ → ℕ)
  | closeModal
  | enqueue (title : String)

/-- One event applied to the swipe state. -/
def stepEvent : SwipeEvent → SwipeState → SwipeState
  | .like m p, s => recordSwipeLike m p s
  | .dislike m p, s => recordSwipeDislike m p s
  | .applyServer st rhoM rhoF rf2, s => applySwipeStateFromServer st rhoM rhoF rf2 s
  | .closeModal, s => closeMatchModal s
  | .enqueue t, s => enqueueMatchModal t s

/-- A sequence of events applied left to right. -/
def runEvents (evs : List SwipeEvent) (s : SwipeState) : SwipeState :=
  evs.foldl (fun acc e => stepEvent e acc) s

/-- The titles referenced by the current pair (used to compare pairs across
calls, since `pickPair` replaces pair components by fresh map lookups). -/
def pairTitles (s : RankState) : Option (Option String × Option String) :=
  s.currentPair.map (fun pr => (pr.1.map Movie.title, pr.2.map Movie.title))

/-- The Like Set of an item: `swipeLikes[movie]` read as a (possibly absent,
then empty) list of voter ids. -/
def likesOf (s : SwipeState) (movie : String) : List String :=
  (lookupAssoc s.swipeLikes movie).getD []

/- Concrete inputs used by counterexamples and witnesses. -/

/-- A movie with title `A` and defaulted display fields. -/
def mvA : Movie := { title := "A" }

/-- A movie with title `B`. -/
def mvB : Movie := { title := "B" }

/-- A movie with title `C`. -/
def mvC : Movie := { title := "C" }

/-- A movie with title `D`. -/
def mvD : Movie := { title := "D" }

/-- A simple belief entry used in concrete states: `μ = 0`, `σ = 1`. -/
def ratingZ : Rating := { ts_mu := 0, ts_sigma := 1, games := 0, wins := 0 }

/-- A degenerate normal-draw oracle. -/
def zZero : String → ℚ := fun _ => 0

/-- Normal draws putting titles `A` then `B` on top. -/
def zAB : String → ℚ := fun t => if t = "A" then 10 else if t = "B" then 9 else 0

/-- Normal draws putting title `C` on top, then `A`. -/
def zCtop : String → ℚ := fun t => if t = "C" then 10 else if t = "A" then 9 else 0

/-- A degenerate shuffle oracle family. -/
def rhoZero : String → ℕ → ℕ := fun _ _ => 0

/-- A degenerate shuffle oracle. -/
def rfZero : ℕ → ℕ := fun _ => 0

/-- One catalog movie but two Beliefs: the `pickPair` guard fires. -/
def rankCexC1 : RankState :=
  { movies := [mvA]
    ratings := [("A", ratingZ), ("B", ratingZ)]
    currentPair := none }

/-- Movies `A`, `B`; stale Beliefs for `C`, `D`; the stored pair references
`C` and `D`, both of which still hold a Belief but are no longer movies. -/
def rankCexC2 : RankState :=
  { movies := [mvA, mvB]
    ratings := [("A", ratingZ), ("B", ratingZ), ("C", ratingZ), ("D", ratingZ)]
    currentPair := some (some mvC, some mvD) }

/-- Movies `A`, `B` plus a stale Belief for `C` (as `applyState` retains
ratings of departed titles). -/
def rankCexC10 : RankState :=
  { movies := [mvA, mvB]
    ratings := [("A", ratingZ), ("B", ratingZ), ("C", ratingZ)]
    currentPair := none }

/-- A well-formed two-movie state with no current pair. -/
def rankFreshAB : RankState :=
  { movies := [mvA, mvB]
    ratings := [("A", ratingZ), ("B", ratingZ)]
    currentPair := none }

/-- A well-formed two-movie state whose stored pair is still valid. -/
def rankValidAB : RankState :=
  { movies := [mvA, mvB]
    ratings := [("A", ratingZ), ("B", ratingZ)]
    currentPair := some (some mvA, some mvB) }

/-- An empty swipe state (the initial globals of script.js). -/
def swipeEmpty : SwipeState :=
  { swipeSelectedMovies := []
    swipeLikes := []
    swipeMatches := []
    swipePersons := []
    swipePersonCount := 2
    swipeCurrentPerson := "p1"
    swipeCurrentIndex := 0
    swipeOrder := []
    swipeCompleted := false
    swipeProgress := []
    swipeLocked := false
    matchQueue := []
    seenMatches := []
    matchModalOpen := false }

/-- Two participants; `X` already has likes from both (loaded from a server
snapshot) but is not yet in the Match Set. -/
def swipeCexC3 : SwipeState :=
  { swipeEmpty with
    swipeSelectedMovies := [{ title := "X" }]
    swipePersons := ["p1", "p2"]
    swipePersonCount := 2
    swipeLikes := [("X", ["p1", "p2"])] }

/-- A locked swipe session holding movies `A` and `B`. -/
def swipeCexC5 : SwipeState :=
  { swipeEmpty with
    swipeSelectedMovies := [mvA, mvB]
    swipePersons := ["p1", "p2"]
    swipeLikes := [("A", []), ("B", [])]
    swipeLocked := true }

/-- One participant who already likes `Y`; a match modal for another title
is currently open, so new match notifications stay queued. -/
def swipeCexC9 : SwipeState :=
  { swipeEmpty with
    swipeSelectedMovies := [{ title := "Y" }]
    swipePersons := ["p1"]
    swipePersonCount := 1
    swipeLikes := [("Y", ["p1"])]
    seenMatches := ["X"]
    matchModalOpen := true }

/- ===================== Helper lemmas ===================== -/

theorem listSwap_cons_succ {α : Type} (a : α) (t : List α) (m n : ℕ) :
    listSwap (a :: t) (m + 1) (n + 1) = a :: listSwap t m n := by
  unfold listSwap
  cases hm : t[m]? <;> cases hn : t[n]? <;> simp [hm, hn]

theorem cons_set_perm {α : Type} :
    ∀ (t : List α) (k : ℕ) (a x : α), t[k]? = some x →
      List.Perm (x :: t.set k a) (a :: t) := by
  intro t
  induction t with
  | nil => intro k a x h; simp at h
  | cons b t2 ih =>
    intro k a x h
    cases k with
    | zero =>
      have hbx : b = x := by simpa using h
      subst hbx
      simpa using List.Perm.swap a b t2
    | succ k2 =>
      simp at h
      have h1 : List.Perm (x :: b :: t2.set k2 a) (b :: x :: t2.set k2 a) :=
        List.Perm.swap b x _
      have h2 : List.Perm (b :: x :: t2.set k2 a) (b :: a :: t2) :=
        (ih k2 a x h).cons b
      have h3 : List.Perm (b :: a :: t2) (a :: b :: t2) := List.Perm.swap a b t2
      simpa using (h1.trans h2).trans h3

theorem listSwap_perm {α : Type} :
    ∀ (l : List α) (i j : ℕ), List.Perm (listSwap l i j) l := by
  intro l
  induction l with
  | nil => intro i j; unfold listSwap; simp
  | cons a t ih =>
    intro i j
    cases i with
    | zero =>
      cases j with
      | zero => unfold listSwap; simp
      | succ n =>
        unfold listSwap
        cases hn : t[n]? with
        | none => simp [hn]
        | some y =>
          simp [hn]
          exact cons_set_perm t n a y hn
    | succ m =>
      cases j with
      | zero =>
        unfold listSwap
        cases hm : t[m]? with
        | none => simp [hm]
        | some x =>
          simp [hm]
          exact cons_set_perm t m a x hm
      | succ n =>
        rw [listSwap_cons_succ]
        exact (ih m n).cons a

theorem fyAux_perm {α : Type} (r : ℕ → ℕ) :
    ∀ (n : ℕ) (a : List α), List.Perm (fyAux r a n) a := by
  intro n
  induction n with
  | zero => intro a; exact List.Perm.refl a
  | succ i ih =>
    intro a
    unfold fyAux
    exact (ih _).trans (listSwap_perm a (i + 1) (r (i + 1) % (i + 2)))

theorem shuffleArray_perm {α : Type} (r : ℕ → ℕ) (l : List α) :
    List.Perm (shuffleArray r l) l :=
  fyAux_perm r (l.length - 1) l


theorem lookupAssoc_cons {β : Type} (k a : String) (v : β) (l : List (String × β)) :
    lookupAssoc ((a, v) :: l) k = if a = k then some v else lookupAssoc l k := by
  by_cases h : a = k <;> simp [lookupAssoc, List.find?_cons, h]

theorem lookupAssoc_append {β : Type} (l1 l2 : List (String × β)) (k : String) :
    lookupAssoc (l1 ++ l2) k =
      match lookupAssoc l1 k with
      | some v => some v
      | none => lookupAssoc l2 k := by
  induction l1 with
  | nil => simp [lookupAssoc]
  | cons a t ih =>
    obtain ⟨a1, a2⟩ := a
    rw [List.cons_append, lookupAssoc_cons, lookupAssoc_cons]
    by_cases h : a1 = k <;> simp [h, ih]

theorem lookupAssoc_map_self {β : Type} (g : String → β) :
    ∀ (l : List String) (p : String), p ∈ l →
      lookupAssoc (l.map (fun q => (q, g q))) p = some (g p) := by
  intro l
  induction l with
  | nil => intro p hp; simp at hp
  | cons a t ih =>
    intro p hp
    rw [List.map_cons, lookupAssoc_cons]
    by_cases hpa : a = p
    · simp [hpa]
    · have hpt : p ∈ t := (List.mem_cons.mp hp).resolve_left (fun h => hpa h.symm)
      simp [hpa, ih p hpt]

theorem lookupAssoc_isSome_eq_any {β : Type} (l : List (String × β)) (k : String) :
    (lookupAssoc l k).isSome = l.any (fun p => decide (p.1 = k)) := by
  induction l with
  | nil => simp [lookupAssoc]
  | cons a t ih =>
    obtain ⟨a1, a2⟩ := a
    rw [lookupAssoc_cons]
    by_cases h : a1 = k <;> simp [h, ih]

theorem lookupAssoc_mapReplace_ne {β : Type} (k k2 : String) (v : β)
    (hk : ¬ k2 = k) :
    ∀ (l : List (String × β)),
      lookupAssoc (l.map (fun p => if p.1 = k then (k, v) else p)) k2 =
        lookupAssoc l k2 := by
  intro l
  induction l with
  | nil => simp
  | cons a t ih =>
    obtain ⟨a1, a2⟩ := a
    rw [List.map_cons]
    by_cases h1 : a1 = k
    · simp only [h1, if_true]
      rw [lookupAssoc_cons, lookupAssoc_cons]
      have hkk2 : ¬ k = k2 := fun h => hk h.symm
      have h1k2 : ¬ a1 = k2 := by rw [h1]; exact hkk2
      simp [hkk2, h1k2, ih]
    · simp only [if_neg h1]
      rw [lookupAssoc_cons, lookupAssoc_cons]
      by_cases h2 : a1 = k2 <;> simp [h2, ih]

theorem lookupAssoc_mapReplace_self {β : Type} (k : String) (v : β) :
    ∀ (l : List (String × β)), (lookupAssoc l k).isSome = true →
      lookupAssoc (l.map (fun p => if p.1 = k then (k, v) else p)) k = some v := by
  intro l
  induction l with
  | nil => intro h; simp [lookupAssoc] at h
  | cons a t ih =>
    intro h
    obtain ⟨a1, a2⟩ := a
    rw [List.map_cons]
    by_cases h1 : a1 = k
    · simp only [h1, if_true]
      rw [lookupAssoc_cons]
      simp
    · simp only [if_neg h1]
      rw [lookupAssoc_cons] at h ⊢
      simp only [h1, if_false] at h ⊢
      exact ih h

theorem lookupAssoc_setAssoc_self {β : Type} (l : List (String × β)) (k : String) (v : β) :
    lookupAssoc (setAssoc l k v) k = some v := by
  unfold setAssoc
  by_cases hany : l.any (fun p => decide (p.1 = k)) = true
  · rw [if_pos hany]
    exact lookupAssoc_mapReplace_self k v l (by rw [lookupAssoc_isSome_eq_any, hany])
  · rw [if_neg hany]
    rw [lookupAssoc_append]
    have hnone : lookupAssoc l k = none := by
      have := lookupAssoc_isSome_eq_any l k
      rw [eq_false_of_ne_true hany] at this
      exact Option.not_isSome_iff_eq_none.mp (by simp [this])
    rw [hnone]
    simp [lookupAssoc_cons]

theorem lookupAssoc_setAssoc_ne {β : Type} (l : List (String × β)) (k k2 : String) (v : β)
    (hk : ¬ k2 = k) : lookupAssoc (setAssoc l k v) k2 = lookupAssoc l k2 := by
  unfold setAssoc
  by_cases hany : l.any (fun p => decide (p.1 = k)) = true
  · rw [if_pos hany]
    exact lookupAssoc_mapReplace_ne k k2 v hk l
  · rw [if_neg hany]
    rw [lookupAssoc_append]
    have hkk2 : ¬ k = k2 := fun h => hk h.symm
    cases hcase : lookupAssoc l k2 with
    | some w => simp
    | none => simp [lookupAssoc_cons, hkk2, lookupAssoc]

theorem movieByTitle_title {ms : List Movie} {t : String} {m : Movie}
    (h : movieByTitle ms t = some m) : m.title = t := by
  unfold movieByTitle at h
  have h2 := List.find?_some h
  simpa using h2

theorem movieByTitle_isSome_iff (ms : List Movie) (t : String) :
    (movieByTitle ms t).isSome ↔ ∃ m ∈ ms, m.title = t := by
  unfold movieByTitle
  rw [List.find?_isSome]
  simp [List.mem_reverse]

theorem lookupRating_isSome_iff (ratings : List (String × Rating)) (t : String) :
    (lookupRating ratings t).isSome ↔ t ∈ ratings.map Prod.fst := by
  unfold lookupRating
  simp [List.find?_isSome, List.mem_map]

theorem pickPair_eq_pickFresh {z : String → ℚ} {s : RankState}
    (hm : ¬ s.movies.length < 2) (hinv : pairStillValid s = false) :
    pickPair z s = pickFresh z s := by
  unfold pickPair
  rw [if_neg hm]
  unfold pairStillValid at hinv
  cases hcp : s.currentPair with
  | none => simp [pickPairCheck]
  | some pr =>
    obtain ⟨lft, rgt⟩ := pr
    cases lft with
    | none => simp [pickPairCheck]
    | some l =>
      cases rgt with
      | none => simp [pickPairCheck]
      | some r =>
        rw [hcp] at hinv
        simp only [Bool.and_eq_false_iff] at hinv
        simp only [pickPairCheck]
        cases hL : movieByTitle s.movies l.title with
        | none => simp [pickPairLookup, hL]
        | some lm =>
          cases hR : movieByTitle s.movies r.title with
          | none => simp [pickPairLookup, hL, hR]
          | some rm =>
            rw [hL, hR] at hinv
            simp at hinv

theorem sortedSampled_perm (z : String → ℚ) (s : RankState) :
    List.Perm (sortedSampled z s) (sampledOf z s) :=
  List.perm_insertionSort sampleGE (sampledOf z s)

theorem sortedSampled_sorted (z : String → ℚ) (s : RankState) :
    List.Sorted sampleGE (sortedSampled z s) :=
  List.sorted_insertionSort sampleGE (sampledOf z s)

theorem sampledOf_fst (z : String → ℚ) (s : RankState) :
    (sampledOf z s).map Prod.fst = s.ratings.map Prod.fst := by
  unfold sampledOf
  rw [List.map_map]
  rfl

theorem mem_sampledOf {z : String → ℚ} {s : RankState} {q1 : String} {q2 : WithBot ℚ} :
    (q1, q2) ∈ sampledOf z s ↔
      q1 ∈ s.ratings.map Prod.fst ∧ q2 = thompsonSample s.ratings z q1 := by
  unfold sampledOf
  constructor
  · intro h
    obtain ⟨p, hp, he⟩ := List.mem_map.mp h
    rw [Prod.mk.injEq] at he
    obtain ⟨he1, he2⟩ := he
    subst he1
    subst he2
    exact ⟨List.mem_map.mpr ⟨p, hp, rfl⟩, rfl⟩
  · rintro ⟨h1, h2⟩
    obtain ⟨p, hp, he⟩ := List.mem_map.mp h1
    subst he
    subst h2
    exact List.mem_map.mpr ⟨p, hp, rfl⟩

theorem sortedSampled_length (z : String → ℚ) (s : RankState) :
    (sortedSampled z s).length = s.ratings.length := by
  unfold sortedSampled
  rw [List.length_insertionSort]
  unfold sampledOf
  simp

/-- Claim C1 (counterexample): a state in which two items hold a Belief and
no previously returned pair is valid, yet `pickPair` draws nothing and
returns no pair, because its guard tests the movie count (here 1), not the
Belief count. -/
theorem pickPair_two_beliefs_no_pair_cex :
    rankCexC1.ratings.length = 2 ∧ pairStillValid rankCexC1 = false ∧
      pickPair zZero rankCexC1 = rankCexC1 ∧ rankCexC1.currentPair = none := by
  refine ⟨rfl, rfl, ?_, rfl⟩
  rfl

/-- Claim C1 (amended): in every state with at least two items in the movie
list (the guard `pickPair` actually checks), at least two Beliefs with
distinct keys, and no still-valid previous pair, `pickPair` draws exactly one
sample `s = μ + z·σ` per title holding a Belief, sorts descending, and stores
the movie-map entries of the two highest-sampled titles as the pair. -/
theorem pickPair_fresh_top_two (z : String → ℚ) (s : RankState)
    (hm : 2 ≤ s.movies.length) (hr : 2 ≤ s.ratings.length)
    (hnd : (s.ratings.map Prod.fst).Nodup)
    (hinv : pairStillValid s = false) :
    ∃ t1 t2 : String,
      (pickPair z s).currentPair =
        some (movieByTitle s.movies t1, movieByTitle s.movies t2) ∧
      t1 ∈ s.ratings.map Prod.fst ∧ t2 ∈ s.ratings.map Prod.fst ∧ ¬ t1 = t2 ∧
      (∃ e1, lookupRating s.ratings t1 = some e1 ∧
        thompsonSample s.ratings z t1 = ((e1.ts_mu + z t1 * e1.ts_sigma : ℚ) : WithBot ℚ)) ∧
      (∃ e2, lookupRating s.ratings t2 = some e2 ∧
        thompsonSample s.ratings z t2 = ((e2.ts_mu + z t2 * e2.ts_sigma : ℚ) : WithBot ℚ)) ∧
      thompsonSample s.ratings z t2 ≤ thompsonSample s.ratings z t1 ∧
      ∀ t ∈ s.ratings.map Prod.fst, ¬ t = t1 →
        thompsonSample s.ratings z t ≤ thompsonSample s.ratings z t2 := by
  have hm2 : ¬ s.movies.length < 2 := not_lt.mpr hm
  have hlen := sortedSampled_length z s
  have hperm := sortedSampled_perm z s
  have hsorted := sortedSampled_sorted z s
  rw [pickPair_eq_pickFresh hm2 hinv]
  cases hsor : sortedSampled z s with
  | nil => rw [hsor] at hlen; simp at hlen; omega
  | cons q1 tl =>
    cases tl with
    | nil => rw [hsor] at hlen; simp at hlen; omega
    | cons q2 rest =>
      rw [hsor] at hperm hsorted
      obtain ⟨q11, q12⟩ := q1
      obtain ⟨q21, q22⟩ := q2
      have hmem1 := mem_sampledOf.mp (hperm.mem_iff.mp (List.mem_cons_self _ _))
      have hmem2 := mem_sampledOf.mp
        (hperm.mem_iff.mp (List.mem_cons_of_mem _ (List.mem_cons_self _ _)))
      obtain ⟨hk1, he1⟩ := hmem1
      obtain ⟨hk2, he2⟩ := hmem2
      rw [List.sorted_cons] at hsorted
      obtain ⟨h1all, hs2⟩ := hsorted
      rw [List.sorted_cons] at hs2
      obtain ⟨h2all, _⟩ := hs2
      have hpf := hperm.map Prod.fst
      rw [sampledOf_fst] at hpf
      have hndq : (q11 :: q21 :: rest.map Prod.fst).Nodup := by
        have := (hpf.nodup_iff).mpr hnd
        simpa using this
      have hne : ¬ q11 = q21 := by
        rw [List.nodup_cons] at hndq
        exact fun h => hndq.1 (h ▸ List.mem_cons_self _ _)
      have hl1 : ∃ e1, lookupRating s.ratings q11 = some e1 := by
        have := (lookupRating_isSome_iff s.ratings q11).mpr hk1
        exact Option.isSome_iff_exists.mp this
      have hl2 : ∃ e2, lookupRating s.ratings q21 = some e2 := by
        have := (lookupRating_isSome_iff s.ratings q21).mpr hk2
        exact Option.isSome_iff_exists.mp this
      obtain ⟨e1, he1l⟩ := hl1
      obtain ⟨e2, he2l⟩ := hl2
      refine ⟨q11, q21, ?_, hk1, hk2, hne, ⟨e1, he1l, ?_⟩, ⟨e2, he2l, ?_⟩, ?_, ?_⟩
      · unfold pickFresh
        rw [hsor]
      · unfold thompsonSample
        rw [he1l]
      · unfold thompsonSample
        rw [he2l]
      · have := h1all (q21, q22) (List.mem_cons_self _ _)
        unfold sampleGE at this
        simp only at this
        rw [← he1, ← he2]
        exact this
      · intro t ht hnet
        have hmemt : (t, thompsonSample s.ratings z t) ∈ sampledOf z s :=
          mem_sampledOf.mpr ⟨ht, rfl⟩
        have hmemt2 := hperm.mem_iff.mpr hmemt
        rcases List.mem_cons.mp hmemt2 with hcase | hcase
        · rw [Prod.mk.injEq] at hcase
          exact absurd hcase.1 hnet
        · rcases List.mem_cons.mp hcase with hcase2 | hcase2
          · rw [Prod.mk.injEq] at hcase2
            rw [hcase2.1, ← he2]
          · have := h2all (t, thompsonSample s.ratings z t) hcase2
            unfold sampleGE at this
            simp only at this
            rw [← he2]
            exact this

/-- Claim C1 (witness): the amended theorem applied to the concrete
two-movie state `rankFreshAB` with draws favouring `A` then `B`. -/
theorem pickPair_fresh_top_two_witness :
    2 ≤ rankFreshAB.movies.length ∧ 2 ≤ rankFreshAB.ratings.length ∧
      (rankFreshAB.ratings.map Prod.fst).Nodup ∧
      pairStillValid rankFreshAB = false ∧
      (∃ t1 t2 : String,
        (pickPair zAB rankFreshAB).currentPair =
          some (movieByTitle rankFreshAB.movies t1, movieByTitle rankFreshAB.movies t2) ∧
        t1 ∈ rankFreshAB.ratings.map Prod.fst ∧
        t2 ∈ rankFreshAB.ratings.map Prod.fst ∧ ¬ t1 = t2 ∧
        (∃ e1, lookupRating rankFreshAB.ratings t1 = some e1 ∧
          thompsonSample rankFreshAB.ratings zAB t1 =
            ((e1.ts_mu + zAB t1 * e1.ts_sigma : ℚ) : WithBot ℚ)) ∧
        (∃ e2, lookupRating rankFreshAB.ratings t2 = some e2 ∧
          thompsonSample rankFreshAB.ratings zAB t2 =
            ((e2.ts_mu + zAB t2 * e2.ts_sigma : ℚ) : WithBot ℚ)) ∧
        thompsonSample rankFreshAB.ratings zAB t2 ≤
          thompsonSample rankFreshAB.ratings zAB t1 ∧
        ∀ t ∈ rankFreshAB.ratings.map Prod.fst, ¬ t = t1 →
          thompsonSample rankFreshAB.ratings zAB t ≤
            thompsonSample rankFreshAB.ratings zAB t2) :=
  ⟨by decide, by decide, by decide, by decide,
    pickPair_fresh_top_two zAB rankFreshAB (by decide) (by decide) (by decide) (by decide)⟩

/-- Helper: the valid-pair branch of `pickPair` re-stores the map lookups. -/
theorem pickPair_valid_eq {z : String → ℚ} {s : RankState} {l r lm rm : Movie}
    (hlen : ¬ s.movies.length < 2)
    (hcp : s.currentPair = some (some l, some r))
    (hL : movieByTitle s.movies l.title = some lm)
    (hR : movieByTitle s.movies r.title = some rm) :
    pickPair z s = { s with currentPair := some (some lm, some rm) } := by
  unfold pickPair
  rw [if_neg hlen, hcp]
  simp only [pickPairCheck]
  rw [hL, hR]
  rfl

/-- Claim C2 (counterexample): a state whose stored pair `(C, D)` references
two items that both still hold a Belief, yet `pickPair` does not return it
unchanged: the code validates against the movie map, where `C` and `D` are
absent, and picks a fresh pair `(A, B)` instead. -/
theorem pair_in_belief_map_not_kept_cex :
    (lookupRating rankCexC2.ratings "C").isSome = true ∧
      (lookupRating rankCexC2.ratings "D").isSome = true ∧
      rankCexC2.currentPair = some (some mvC, some mvD) ∧
      (pickPair zAB rankCexC2).currentPair = some (some mvA, some mvB) ∧
      ¬ (pickPair zAB rankCexC2).currentPair = rankCexC2.currentPair := by
  have h1 : (9:ℚ) ≤ 10 := by norm_num
  have h2 : (0:ℚ) ≤ 9 := by norm_num
  have h3 : (0:ℚ) ≤ 0 := le_refl 0
  have w1 : (9 : WithBot ℚ) ≤ (10 : WithBot ℚ) := by
    exact_mod_cast (by norm_num : (9:ℚ) ≤ 10)
  have w2 : (0 : WithBot ℚ) ≤ (9 : WithBot ℚ) := by
    exact_mod_cast (by norm_num : (0:ℚ) ≤ 9)
  have he : (pickPair zAB rankCexC2).currentPair = some (some mvA, some mvB) := by
    simp [pickPair, pickPairCheck, pickPairLookup, pickFresh, sortedSampled, sampledOf,
      thompsonSample, lookupRating, movieByTitle, rankCexC2, zAB, mvA, mvB, mvC, mvD,
      ratingZ, List.insertionSort, List.orderedInsert, sampleGE, List.find?,
      h1, h2, h3, w1, w2]
  refine ⟨by decide, by decide, by decide, he, ?_⟩
  rw [he]
  decide

/-- Claim C2 (amended): if the previously returned pair references two items
present in the current movie-by-title map (the check the code performs), then
`pickPair` keeps the pair titles unchanged and repeated calls with no
intervening vote are idempotent. -/
theorem pickPair_idempotent_valid (z z2 : String → ℚ) (s : RankState)
    (h : pairStillValid s = true) :
    pairTitles (pickPair z s) = pairTitles s ∧
    pickPair z2 (pickPair z s) = pickPair z s := by
  unfold pairStillValid at h
  cases hcp : s.currentPair with
  | none => rw [hcp] at h; simp at h
  | some pr =>
    obtain ⟨lft, rgt⟩ := pr
    cases lft with
    | none => rw [hcp] at h; simp at h
    | some l =>
      cases rgt with
      | none => rw [hcp] at h; simp at h
      | some r =>
        rw [hcp] at h
        simp only [Bool.and_eq_true, Option.isSome_iff_exists] at h
        obtain ⟨⟨lm, hL⟩, ⟨rm, hR⟩⟩ := h
        by_cases hlen : s.movies.length < 2
        · have e1 : pickPair z s = s := by unfold pickPair; rw [if_pos hlen]
          have e2 : pickPair z2 s = s := by unfold pickPair; rw [if_pos hlen]
          rw [e1, e2]
          exact ⟨rfl, rfl⟩
        · have hlt : lm.title = l.title := movieByTitle_title hL
          have hrt : rm.title = r.title := movieByTitle_title hR
          have e1 : pickPair z s = { s with currentPair := some (some lm, some rm) } :=
            pickPair_valid_eq hlen hcp hL hR
          have hL1 : movieByTitle s.movies lm.title = some lm := by rw [hlt]; exact hL
          have hR1 : movieByTitle s.movies rm.title = some rm := by rw [hrt]; exact hR
          have e2 : pickPair z2 ({ s with currentPair := some (some lm, some rm) } : RankState) =
              { s with currentPair := some (some lm, some rm) } :=
            pickPair_valid_eq (s := { s with currentPair := some (some lm, some rm) })
              hlen rfl hL1 hR1
          refine ⟨?_, by rw [e1, e2]⟩
          rw [e1]
          unfold pairTitles
          rw [hcp]
          simp [hlt, hrt]

/-- Claim C2 (witness): the amended theorem applied to the concrete state
`rankValidAB`, whose stored pair `(A, B)` is still in the movie map. -/
theorem pickPair_idempotent_valid_witness :
    pairStillValid rankValidAB = true ∧
      (pairTitles (pickPair zAB rankValidAB) = pairTitles rankValidAB ∧
        pickPair zCtop (pickPair zAB rankValidAB) = pickPair zAB rankValidAB) :=
  ⟨by decide, pickPair_idempotent_valid zAB zCtop rankValidAB (by decide)⟩

/-- Claim C10 (counterexample): with movies `A`, `B` and a retained Belief
for the departed title `C`, a fresh pick whose draws favour `C` stores an
undefined (`none`) pair component: the sampled title `C` is not a key of the
movie-by-title map. -/
theorem pickPair_undefined_component_cex :
    (lookupRating rankCexC10.ratings "C").isSome = true ∧
      movieByTitle rankCexC10.movies "C" = none ∧
      (pickPair zCtop rankCexC10).currentPair = some (none, some mvA) := by
  have h1 : ¬((10:ℚ) ≤ 9) := by norm_num
  have h2 : ¬((10:ℚ) ≤ 0) := by norm_num
  have h3 : (0:ℚ) ≤ 9 := by norm_num
  have w1 : ¬((10 : WithBot ℚ) ≤ (9 : WithBot ℚ)) := by
    exact_mod_cast (by norm_num : ¬((10:ℚ) ≤ 9))
  refine ⟨by decide, by decide, ?_⟩
  simp [pickPair, pickPairCheck, pickFresh, sortedSampled, sampledOf, thompsonSample,
    lookupRating, movieByTitle, rankCexC10, zCtop, mvA, mvB, mvC, ratingZ,
    List.insertionSort, List.orderedInsert, sampleGE, List.find?, h1, h2, h3, w1]

/-- Claim C10 (amended): whenever every title holding a Belief is also a key
of the movie-by-title map, any pair `pickPair` constructs has both
components defined.  (Without that hypothesis a component can be `none`, as
the counterexample shows.) -/
theorem pickPair_components_defined (z : String → ℚ) (s : RankState)
    (hm : 2 ≤ s.movies.length) (hr : 2 ≤ s.ratings.length)
    (hsub : ∀ p ∈ s.ratings, ∃ m ∈ s.movies, m.title = p.1) :
    ∃ m1 m2 : Movie, (pickPair z s).currentPair = some (some m1, some m2) := by
  have hm2 : ¬ s.movies.length < 2 := not_lt.mpr hm
  cases hvalid : pairStillValid s with
  | true =>
    unfold pairStillValid at hvalid
    cases hcp : s.currentPair with
    | none => rw [hcp] at hvalid; simp at hvalid
    | some pr =>
      obtain ⟨lft, rgt⟩ := pr
      cases lft with
      | none => rw [hcp] at hvalid; simp at hvalid
      | some l =>
        cases rgt with
        | none => rw [hcp] at hvalid; simp at hvalid
        | some r =>
          rw [hcp] at hvalid
          simp only [Bool.and_eq_true, Option.isSome_iff_exists] at hvalid
          obtain ⟨⟨lm, hL⟩, ⟨rm, hR⟩⟩ := hvalid
          exact ⟨lm, rm, by rw [pickPair_valid_eq hm2 hcp hL hR]⟩
  | false =>
    rw [pickPair_eq_pickFresh hm2 hvalid]
    have hlen := sortedSampled_length z s
    have hperm := sortedSampled_perm z s
    cases hsor : sortedSampled z s with
    | nil => rw [hsor] at hlen; simp at hlen; omega
    | cons q1 tl =>
      cases tl with
      | nil => rw [hsor] at hlen; simp at hlen; omega
      | cons q2 rest =>
        rw [hsor] at hperm
        obtain ⟨q11, q12⟩ := q1
        obtain ⟨q21, q22⟩ := q2
        obtain ⟨hk1, _⟩ := mem_sampledOf.mp (hperm.mem_iff.mp (List.mem_cons_self _ _))
        obtain ⟨hk2, _⟩ := mem_sampledOf.mp
          (hperm.mem_iff.mp (List.mem_cons_of_mem _ (List.mem_cons_self _ _)))
        obtain ⟨p1, hp1, hp1e⟩ := List.mem_map.mp hk1
        obtain ⟨p2, hp2, hp2e⟩ := List.mem_map.mp hk2
        have hs1 : (movieByTitle s.movies q11).isSome :=
          (movieByTitle_isSome_iff s.movies q11).mpr (hp1e ▸ hsub p1 hp1)
        have hs2 : (movieByTitle s.movies q21).isSome :=
          (movieByTitle_isSome_iff s.movies q21).mpr (hp2e ▸ hsub p2 hp2)
        obtain ⟨m1, hm1⟩ := Option.isSome_iff_exists.mp hs1
        obtain ⟨m2, hm2x⟩ := Option.isSome_iff_exists.mp hs2
        refine ⟨m1, m2, ?_⟩
        unfold pickFresh
        rw [hsor]
        simp [hm1, hm2x]

/-- Claim C10 (witness): the amended theorem applied to `rankFreshAB`, where
the Belief keys `A`, `B` are exactly the movie titles. -/
theorem pickPair_components_defined_witness :
    2 ≤ rankFreshAB.movies.length ∧ 2 ≤ rankFreshAB.ratings.length ∧
      (∀ p ∈ rankFreshAB.ratings, ∃ m ∈ rankFreshAB.movies, m.title = p.1) ∧
      ∃ m1 m2 : Movie, (pickPair zAB rankFreshAB).currentPair = some (some m1, some m2) :=
  ⟨by decide, by decide, by decide,
    pickPair_components_defined zAB rankFreshAB (by decide) (by decide) (by decide)⟩

theorem mem_addToSet {l : List String} {t x : String} :
    x ∈ addToSet l t ↔ x ∈ l ∨ x = t := by
  unfold addToSet
  by_cases h : t ∈ l
  · rw [if_pos h]
    constructor
    · exact fun hx => Or.inl hx
    · rintro (hx | rfl)
      · exact hx
      · exact h
  · rw [if_neg h]
    simp

theorem processMatchQueue_core (s : SwipeState) :
    (processMatchQueue s).swipeLikes = s.swipeLikes ∧
    (processMatchQueue s).swipeMatches = s.swipeMatches ∧
    (processMatchQueue s).swipeSelectedMovies = s.swipeSelectedMovies ∧
    (processMatchQueue s).swipeProgress = s.swipeProgress ∧
    (processMatchQueue s).swipePersons = s.swipePersons ∧
    (processMatchQueue s).swipePersonCount = s.swipePersonCount ∧
    (processMatchQueue s).swipeLocked = s.swipeLocked := by
  unfold processMatchQueue
  by_cases hm : s.matchModalOpen
  · rw [if_pos hm]
    exact ⟨rfl, rfl, rfl, rfl, rfl, rfl, rfl⟩
  · rw [if_neg hm]
    cases hq : s.matchQueue with
    | nil => exact ⟨rfl, rfl, rfl, rfl, rfl, rfl, rfl⟩
    | cons a l =>
      by_cases ha : a = ""
      · simp [ha]
      · simp [ha, showMatchModal]

theorem enqueueMatchModal_core (t : String) (s : SwipeState) :
    (enqueueMatchModal t s).swipeLikes = s.swipeLikes ∧
    (enqueueMatchModal t s).swipeMatches = s.swipeMatches ∧
    (enqueueMatchModal t s).swipeSelectedMovies = s.swipeSelectedMovies ∧
    (enqueueMatchModal t s).swipeProgress = s.swipeProgress ∧
    (enqueueMatchModal t s).swipePersons = s.swipePersons ∧
    (enqueueMatchModal t s).swipePersonCount = s.swipePersonCount ∧
    (enqueueMatchModal t s).swipeLocked = s.swipeLocked := by
  unfold enqueueMatchModal
  by_cases h : t = "" ∨ t ∈ s.seenMatches
  · rw [if_pos h]
    exact ⟨rfl, rfl, rfl, rfl, rfl, rfl, rfl⟩
  · rw [if_neg h]
    exact processMatchQueue_core { s with matchQueue := s.matchQueue ++ [t] }

theorem likesOf_eq_cur (s : SwipeState) (movie : String) :
    ((lookupAssoc
        (if (lookupAssoc s.swipeLikes movie).isSome then s.swipeLikes
          else s.swipeLikes ++ [(movie, [])]) movie).getD []) = likesOf s movie := by
  unfold likesOf
  cases h0 : lookupAssoc s.swipeLikes movie with
  | none =>
    simp only [h0, Option.isSome_none, Bool.false_eq_true, if_false]
    rw [lookupAssoc_append, h0]
    simp [lookupAssoc_cons]
  | some cur => simp [h0]

theorem recordSwipeLike_likes (movie person : String) (s : SwipeState) :
    lookupAssoc (recordSwipeLike movie person s).swipeLikes movie =
      some (if person ∈ likesOf s movie then likesOf s movie
        else likesOf s movie ++ [person]) := by
  unfold recordSwipeLike
  simp only [likesOf_eq_cur]
  by_cases hmem : person ∈ likesOf s movie
  · rw [if_pos hmem, if_pos hmem]
    have hl1 : lookupAssoc
        (if (lookupAssoc s.swipeLikes movie).isSome then s.swipeLikes
          else s.swipeLikes ++ [(movie, [])]) movie = some (likesOf s movie) := by
      cases h0 : lookupAssoc s.swipeLikes movie with
      | none =>
        exact absurd hmem (by unfold likesOf; rw [h0]; simp)
      | some cur =>
        unfold likesOf
        simp [h0]
    rw [hl1]
    simp only [Option.getD_some]
    by_cases hge : s.swipePersonCount ≤ (likesOf s movie).length
    · rw [if_pos hge]
      rw [(enqueueMatchModal_core movie _).1]
      exact hl1
    · rw [if_neg hge]
      exact hl1
  · rw [if_neg hmem, if_neg hmem]
    have hset : lookupAssoc
        (setAssoc
          (if (lookupAssoc s.swipeLikes movie).isSome then s.swipeLikes
            else s.swipeLikes ++ [(movie, [])]) movie (likesOf s movie ++ [person]))
        movie = some (likesOf s movie ++ [person]) :=
      lookupAssoc_setAssoc_self _ movie _
    rw [hset]
    simp only [Option.getD_some]
    by_cases hge : s.swipePersonCount ≤ (likesOf s movie ++ [person]).length
    · rw [if_pos hge]
      rw [(enqueueMatchModal_core movie _).1]
      exact hset
    · rw [if_neg hge]
      exact hset

theorem recordSwipeLike_matches (movie person : String) (s : SwipeState) :
    (recordSwipeLike movie person s).swipeMatches =
      if s.swipePersonCount ≤
          (if person ∈ likesOf s movie then likesOf s movie
            else likesOf s movie ++ [person]).length
      then addToSet s.swipeMatches movie else s.swipeMatches := by
  unfold recordSwipeLike
  simp only [likesOf_eq_cur]
  by_cases hmem : person ∈ likesOf s movie
  · rw [if_pos hmem, if_pos hmem]
    have hl1 : lookupAssoc
        (if (lookupAssoc s.swipeLikes movie).isSome then s.swipeLikes
          else s.swipeLikes ++ [(movie, [])]) movie = some (likesOf s movie) := by
      cases h0 : lookupAssoc s.swipeLikes movie with
      | none =>
        exact absurd hmem (by unfold likesOf; rw [h0]; simp)
      | some cur =>
        unfold likesOf
        simp [h0]
    rw [hl1]
    simp only [Option.getD_some]
    by_cases hge : s.swipePersonCount ≤ (likesOf s movie).length
    · rw [if_pos hge, if_pos hge]
      rw [(enqueueMatchModal_core movie _).2.1]
    · rw [if_neg hge, if_neg hge]
  · rw [if_neg hmem, if_neg hmem]
    have hset : lookupAssoc
        (setAssoc
          (if (lookupAssoc s.swipeLikes movie).isSome then s.swipeLikes
            else s.swipeLikes ++ [(movie, [])]) movie (likesOf s movie ++ [person]))
        movie = some (likesOf s movie ++ [person]) :=
      lookupAssoc_setAssoc_self _ movie _
    rw [hset]
    simp only [Option.getD_some]
    by_cases hge : s.swipePersonCount ≤ (likesOf s movie ++ [person]).length
    · rw [if_pos hge, if_pos hge]
      rw [(enqueueMatchModal_core movie _).2.1]
    · rw [if_neg hge, if_neg hge]

/-- Claim C3 (counterexample): with 2 participants and a Like Set for `X`
already holding both of them (as loaded from a server snapshot), a third
like on `X` adds it to the Match Set with a Like Set of size 3, not equal to
the participant count: the code tests `length >= count`, not equality. -/
theorem like_match_exceeds_count_cex :
    swipeCexC3.swipePersonCount = 2 ∧
      ¬ "X" ∈ swipeCexC3.swipeMatches ∧
      "X" ∈ (recordSwipeLike "X" "p3" swipeCexC3).swipeMatches ∧
      (likesOf (recordSwipeLike "X" "p3" swipeCexC3) "X").length = 3 := by
  decide

/-- Claim C3 (amended): every like decision adds the voter to the title's
Like Set, and the title ends up in the Match Set exactly when it was already
there or its Like Set size reaches at least the participant count. -/
theorem recordSwipeLike_spec (movie person : String) (s : SwipeState) :
    person ∈ likesOf (recordSwipeLike movie person s) movie ∧
    (movie ∈ (recordSwipeLike movie person s).swipeMatches ↔
      movie ∈ s.swipeMatches ∨
        s.swipePersonCount ≤ (likesOf (recordSwipeLike movie person s) movie).length) := by
  have hl := recordSwipeLike_likes movie person s
  have hm := recordSwipeLike_matches movie person s
  have hlen : likesOf (recordSwipeLike movie person s) movie =
      (if person ∈ likesOf s movie then likesOf s movie
        else likesOf s movie ++ [person]) := by
    unfold likesOf
    rw [hl]
    rfl
  constructor
  · rw [hlen]
    by_cases hmem : person ∈ likesOf s movie
    · rw [if_pos hmem]; exact hmem
    · rw [if_neg hmem]; simp
  · rw [hm, hlen]
    by_cases hge : s.swipePersonCount ≤
        (if person ∈ likesOf s movie then likesOf s movie
          else likesOf s movie ++ [person]).length
    · rw [if_pos hge]
      simp [mem_addToSet, hge]
    · rw [if_neg hge]
      constructor
      · exact Or.inl
      · rintro (hx | hx)
        · exact hx
        · exact absurd hx hge

/-- Claim C3 (witness): the amended theorem at a fresh state with one
participant liking `X`. -/
theorem recordSwipeLike_spec_witness :
    "p1" ∈ likesOf (recordSwipeLike "X" "p1" swipeEmpty) "X" ∧
    ("X" ∈ (recordSwipeLike "X" "p1" swipeEmpty).swipeMatches ↔
      "X" ∈ swipeEmpty.swipeMatches ∨
        swipeEmpty.swipePersonCount ≤
          (likesOf (recordSwipeLike "X" "p1" swipeEmpty) "X").length) :=
  recordSwipeLike_spec "X" "p1" swipeEmpty

/-- Claim C4 (confirmed): a dislike removes the voter from that title's Like
Set and changes nothing else; in particular a recorded match is never
retracted. -/
theorem recordSwipeDislike_spec (movie person : String) (s : SwipeState) :
    ¬ person ∈ likesOf (recordSwipeDislike movie person s) movie ∧
    (∀ m, ¬ m = movie →
      lookupAssoc (recordSwipeDislike movie person s).swipeLikes m
        = lookupAssoc s.swipeLikes m) ∧
    (∀ q, ¬ q = person →
      (q ∈ likesOf (recordSwipeDislike movie person s) movie ↔ q ∈ likesOf s movie)) ∧
    (recordSwipeDislike movie person s).swipeMatches = s.swipeMatches ∧
    (recordSwipeDislike movie person s).swipeSelectedMovies = s.swipeSelectedMovies ∧
    (recordSwipeDislike movie person s).swipeProgress = s.swipeProgress ∧
    (recordSwipeDislike movie person s).swipePersons = s.swipePersons ∧
    (recordSwipeDislike movie person s).swipePersonCount = s.swipePersonCount ∧
    (recordSwipeDislike movie person s).swipeLocked = s.swipeLocked ∧
    (recordSwipeDislike movie person s).matchQueue = s.matchQueue ∧
    (recordSwipeDislike movie person s).seenMatches = s.seenMatches ∧
    (movie ∈ s.swipeMatches → movie ∈ (recordSwipeDislike movie person s).swipeMatches) := by
  cases h0 : lookupAssoc s.swipeLikes movie with
  | none =>
    have he : recordSwipeDislike movie person s = s := by
      unfold recordSwipeDislike
      rw [h0]
    rw [he]
    refine ⟨?_, fun m _ => rfl, fun q _ => Iff.rfl, rfl, rfl, rfl, rfl, rfl, rfl, rfl, rfl,
      fun h => h⟩
    unfold likesOf
    rw [h0]
    simp
  | some cur =>
    have he : recordSwipeDislike movie person s = { s with swipeLikes := setAssoc s.swipeLikes movie (cur.filter (fun p => decide (¬ p = person))) } := by
      unfold recordSwipeDislike
      rw [h0]
    rw [he]
    refine ⟨?_, ?_, ?_, rfl, rfl, rfl, rfl, rfl, rfl, rfl, rfl, fun h => h⟩
    · show ¬ person ∈ (lookupAssoc (setAssoc s.swipeLikes movie
        (cur.filter (fun p => decide (¬ p = person)))) movie).getD []
      rw [lookupAssoc_setAssoc_self]
      simp only [Option.getD_some]
      intro hmem
      have := (List.mem_filter.mp hmem).2
      simp at this
    · intro m hm
      show lookupAssoc (setAssoc s.swipeLikes movie
        (cur.filter (fun p => decide (¬ p = person)))) m = lookupAssoc s.swipeLikes m
      exact lookupAssoc_setAssoc_ne _ movie m _ hm
    · intro q hq
      show q ∈ (lookupAssoc (setAssoc s.swipeLikes movie
          (cur.filter (fun p => decide (¬ p = person)))) movie).getD [] ↔
        q ∈ likesOf s movie
      rw [lookupAssoc_setAssoc_self]
      unfold likesOf
      rw [h0]
      simp only [Option.getD_some]
      rw [List.mem_filter]
      simp [hq]

/-- Claim C4 (witness): the theorem applied to a concrete state where `X`
has likes from `p1` and `p2` and a later dislike by `p1` arrives. -/
theorem recordSwipeDislike_spec_witness :
    ¬ "p1" ∈ likesOf (recordSwipeDislike "X" "p1" swipeCexC3) "X" ∧
    (∀ m, ¬ m = "X" →
      lookupAssoc (recordSwipeDislike "X" "p1" swipeCexC3).swipeLikes m
        = lookupAssoc swipeCexC3.swipeLikes m) ∧
    (∀ q, ¬ q = "p1" →
      (q ∈ likesOf (recordSwipeDislike "X" "p1" swipeCexC3) "X" ↔
        q ∈ likesOf swipeCexC3 "X")) ∧
    (recordSwipeDislike "X" "p1" swipeCexC3).swipeMatches = swipeCexC3.swipeMatches ∧
    (recordSwipeDislike "X" "p1" swipeCexC3).swipeSelectedMovies
      = swipeCexC3.swipeSelectedMovies ∧
    (recordSwipeDislike "X" "p1" swipeCexC3).swipeProgress = swipeCexC3.swipeProgress ∧
    (recordSwipeDislike "X" "p1" swipeCexC3).swipePersons = swipeCexC3.swipePersons ∧
    (recordSwipeDislike "X" "p1" swipeCexC3).swipePersonCount
      = swipeCexC3.swipePersonCount ∧
    (recordSwipeDislike "X" "p1" swipeCexC3).swipeLocked = swipeCexC3.swipeLocked ∧
    (recordSwipeDislike "X" "p1" swipeCexC3).matchQueue = swipeCexC3.matchQueue ∧
    (recordSwipeDislike "X" "p1" swipeCexC3).seenMatches = swipeCexC3.seenMatches ∧
    ("X" ∈ swipeCexC3.swipeMatches →
      "X" ∈ (recordSwipeDislike "X" "p1" swipeCexC3).swipeMatches) :=
  recordSwipeDislike_spec "X" "p1" swipeCexC3

theorem resetSwipeProgressAll_core (rho : String → ℕ → ℕ) (rf : ℕ → ℕ) (s : SwipeState) :
    (resetSwipeProgressAll rho rf s).swipeLikes = s.swipeLikes ∧
    (resetSwipeProgressAll rho rf s).swipeSelectedMovies = s.swipeSelectedMovies ∧
    (resetSwipeProgressAll rho rf s).swipeLocked = s.swipeLocked ∧
    (resetSwipeProgressAll rho rf s).swipeMatches = s.swipeMatches ∧
    (resetSwipeProgressAll rho rf s).swipePersons = s.swipePersons := by
  unfold resetSwipeProgressAll
  exact ⟨rfl, rfl, rfl, rfl, rfl⟩

/-- Claim C5 (counterexample): `addSwipeMovie` on a locked session is not
rejected: the item is appended and the session state changes. -/
theorem addSwipeMovie_locked_not_rejected_cex :
    swipeCexC5.swipeLocked = true ∧
      (addSwipeMovie [] "Z" rhoZero rfZero swipeCexC5).swipeSelectedMovies.map Movie.title
        = ["A", "B", "Z"] ∧
      ¬ addSwipeMovie [] "Z" rhoZero rfZero swipeCexC5 = swipeCexC5 := by
  decide

/-- Claim C5 (amended): `addSwipeMovie` performs no lock check at all: on any
session, locked or not, a nonempty new title is appended to the item list,
its Like Set is initialized (kept if present), and the locked flag itself is
untouched. -/
theorem addSwipeMovie_ignores_lock (sug : List (String × Movie)) (d : String)
    (rho : String → ℕ → ℕ) (rf : ℕ → ℕ) (s : SwipeState)
    (hd : ¬ d = "")
    (hnew : ∀ m ∈ s.swipeSelectedMovies, ¬ m.title = (suggestionInfo sug d).title) :
    (addSwipeMovie sug d rho rf s).swipeSelectedMovies.map Movie.title
      = s.swipeSelectedMovies.map Movie.title ++ [(suggestionInfo sug d).title] ∧
    (addSwipeMovie sug d rho rf s).swipeLocked = s.swipeLocked ∧
    lookupAssoc (addSwipeMovie sug d rho rf s).swipeLikes (suggestionInfo sug d).title
      = some (likesOf s (suggestionInfo sug d).title) := by
  have hany : s.swipeSelectedMovies.any
      (fun m => decide (m.title = (suggestionInfo sug d).title)) = false := by
    rw [List.any_eq_false]
    intro m hm
    simpa using hnew m hm
  simp only [addSwipeMovie]
  rw [if_neg hd, hany]
  simp only [Bool.false_eq_true, if_false]
  obtain ⟨hL, hSel, hLock, _, _⟩ :=
    resetSwipeProgressAll_core rho rf (addSwipeBase sug d s)
  rw [hL, hSel, hLock]
  refine ⟨?_, rfl, ?_⟩
  · simp [addSwipeBase]
  · show lookupAssoc (if (lookupAssoc s.swipeLikes (suggestionInfo sug d).title).isSome
        then s.swipeLikes else s.swipeLikes ++ [((suggestionInfo sug d).title, [])])
        (suggestionInfo sug d).title = some (likesOf s (suggestionInfo sug d).title)
    cases h0 : lookupAssoc s.swipeLikes (suggestionInfo sug d).title with
    | none =>
      simp only [Option.isSome_none, Bool.false_eq_true, if_false, lookupAssoc_append, h0,
        likesOf]
      simp [lookupAssoc_cons]
    | some cur =>
      simp only [Option.isSome_some, if_true, likesOf, h0]
      simp

/-- Claim C5 (witness): the amended theorem on the concrete locked session
`swipeCexC5` with new title `Z`. -/
theorem addSwipeMovie_ignores_lock_witness :
    ¬ "Z" = "" ∧
      (∀ m ∈ swipeCexC5.swipeSelectedMovies,
        ¬ m.title = (suggestionInfo [] "Z").title) ∧
      ((addSwipeMovie [] "Z" rhoZero rfZero swipeCexC5).swipeSelectedMovies.map Movie.title
          = swipeCexC5.swipeSelectedMovies.map Movie.title ++ [(suggestionInfo [] "Z").title] ∧
        (addSwipeMovie [] "Z" rhoZero rfZero swipeCexC5).swipeLocked
          = swipeCexC5.swipeLocked ∧
        lookupAssoc (addSwipeMovie [] "Z" rhoZero rfZero swipeCexC5).swipeLikes
            (suggestionInfo [] "Z").title
          = some (likesOf swipeCexC5 (suggestionInfo [] "Z").title)) :=
  ⟨by decide, by decide,
    addSwipeMovie_ignores_lock [] "Z" rhoZero rfZero swipeCexC5 (by decide) (by decide)⟩

theorem ensureTsRating_sigma_floor (muCfg sigmaCfg : ℚ) (hcfg : sigmaFloor ≤ sigmaCfg)
    (e : Option RawRating) : sigmaFloor ≤ (ensureTsRating muCfg sigmaCfg e).ts_sigma := by
  simp only [ensureTsRating]
  cases h : (e.getD {}).ts_sigma with
  | none => simp [h]
  | some v =>
    cases v with
    | none => simp [h]; exact hcfg
    | some q => simp [h]

theorem sigmaSqUpdate_le (sigmaSq cSq w eps : ℚ) (hc : 0 < cSq) (hw : 0 ≤ w)
    (he0 : 0 < eps) (he1 : eps ≤ 1) (hs : 0 < sigmaSq) :
    sigmaSqUpdate sigmaSq cSq w eps ≤ sigmaSq ∧ 0 < sigmaSqUpdate sigmaSq cSq w eps := by
  unfold sigmaSqUpdate
  constructor
  · have hx : 0 ≤ sigmaSq / cSq * w := by positivity
    have hfac : max (1 - sigmaSq / cSq * w) eps ≤ 1 := by
      apply max_le _ he1
      linarith
    calc sigmaSq * max (1 - sigmaSq / cSq * w) eps
        ≤ sigmaSq * 1 := by
          exact mul_le_mul_of_nonneg_left hfac hs.le
      _ = sigmaSq := mul_one _
  · have hp : 0 < max (1 - sigmaSq / cSq * w) eps := lt_max_iff.mpr (Or.inr he0)
    exact mul_pos hs hp

theorem sigmaSqUpdates_le (eps : ℚ) (he0 : 0 < eps) (he1 : eps ≤ 1) :
    ∀ (games : List (ℚ × ℚ)), (∀ g ∈ games, 0 < g.1 ∧ 0 ≤ g.2) →
      ∀ sigmaSq : ℚ, 0 < sigmaSq →
        sigmaSqUpdates eps games sigmaSq ≤ sigmaSq ∧
          0 < sigmaSqUpdates eps games sigmaSq := by
  intro games
  induction games with
  | nil =>
    intro _ sq hs
    exact ⟨le_refl _, hs⟩
  | cons g gs ih =>
    intro hg sq hs
    have hgm := hg g (List.mem_cons_self _ _)
    have hstep := sigmaSqUpdate_le sq g.1 g.2 eps hgm.1 hgm.2 he0 he1 hs
    have hrest := ih (fun x hx => hg x (List.mem_cons_of_mem _ hx)) _ hstep.2
    unfold sigmaSqUpdates at hrest ⊢
    rw [List.foldl_cons]
    exact ⟨le_trans hrest.1 hstep.1, hrest.2⟩

/-- Claim C6 (confirmed, update rule modelled from the spec): successive σ²
updates of the backend rule `σ'² = σ²·max(1 − (σ²/c²)·w, ε)` are
non-increasing and stay positive (for the rule's own quantities `c² > 0`,
`w = v·(v+t) ≥ 0`, `0 < ε ≤ 1`), and every Belief produced by normalizing a
loaded state carries `σ ≥ 0.0001` whenever the configured `TS_SIGMA` is at
least that floor. -/
theorem sigma_nonincreasing_and_floored
    (eps : ℚ) (he0 : 0 < eps) (he1 : eps ≤ 1)
    (games : List (ℚ × ℚ)) (hg : ∀ g ∈ games, 0 < g.1 ∧ 0 ≤ g.2)
    (sigmaSq : ℚ) (hs : 0 < sigmaSq)
    (muCfg sigmaCfg : ℚ) (hcfg : sigmaFloor ≤ sigmaCfg)
    (movies : List Movie) (incoming : List (String × RawRating)) :
    (sigmaSqUpdates eps games sigmaSq ≤ sigmaSq ∧
        0 < sigmaSqUpdates eps games sigmaSq) ∧
      ∀ p ∈ applyStateRatings muCfg sigmaCfg movies incoming,
        sigmaFloor ≤ p.2.ts_sigma := by
  refine ⟨sigmaSqUpdates_le eps he0 he1 games hg sigmaSq hs, ?_⟩
  intro p hp
  unfold applyStateRatings at hp
  simp only [List.mem_append] at hp
  rcases hp with hp | hp
  · obtain ⟨m, _, he⟩ := List.mem_map.mp hp
    rw [← he]
    exact ensureTsRating_sigma_floor muCfg sigmaCfg hcfg _
  · obtain ⟨q, _, he⟩ := List.mem_map.mp hp
    rw [← he]
    exact ensureTsRating_sigma_floor muCfg sigmaCfg hcfg _

/-- Claim C6 (witness): the theorem at `ε = 1/2`, one game with `c² = 2`,
`w = 1`, starting `σ² = 4`, configuration `(1500, 400)`, one movie and one
malformed incoming rating. -/
theorem sigma_nonincreasing_and_floored_witness :
    (0 : ℚ) < 1/2 ∧ (1/2 : ℚ) ≤ 1 ∧
      (∀ g ∈ [((2 : ℚ), (1 : ℚ))], 0 < g.1 ∧ 0 ≤ g.2) ∧ (0 : ℚ) < 4 ∧
      sigmaFloor ≤ (400 : ℚ) ∧
      ((sigmaSqUpdates (1/2) [((2 : ℚ), (1 : ℚ))] 4 ≤ 4 ∧
          0 < sigmaSqUpdates (1/2) [((2 : ℚ), (1 : ℚ))] 4) ∧
        ∀ p ∈ applyStateRatings 1500 400 [mvA] [("A", { ts_sigma := some none })],
          sigmaFloor ≤ p.2.ts_sigma) :=
  ⟨by norm_num, by norm_num,
    by
      rintro g hg
      rw [List.mem_singleton] at hg
      subst hg
      constructor <;> norm_num,
    by norm_num,
    by rw [sigmaFloor]; norm_num,
    sigma_nonincreasing_and_floored (1/2) (by norm_num) (by norm_num) _
      (by
        rintro g hg
        rw [List.mem_singleton] at hg
        subst hg
        constructor <;> norm_num)
      4 (by norm_num) 1500 400 (by rw [sigmaFloor]; norm_num) [mvA]
      [("A", { ts_sigma := some none })]⟩

/-- Claim C7 (confirmed, no-vote snapshot modelled from the spec): applying
a no-vote snapshot for an `n ≥ 2` item catalog yields
`totalPairs = n·(n−1)/2` (nonzero), `coveredPairs = 0` and `ratio = 0`; and
for every coverage snapshot the normalized `ratio` is
`coveredPairs/totalPairs`, taken to be `0` when `totalPairs = 0`. -/
theorem coverage_no_votes (n : ℕ) (hn : 2 ≤ n) :
    (applyStateCoverage (some (noVoteCoverage n)) n).totalPairs
        = ((n : ℚ) * ((n : ℚ) - 1)) / 2 ∧
      ¬ (applyStateCoverage (some (noVoteCoverage n)) n).totalPairs = 0 ∧
      (applyStateCoverage (some (noVoteCoverage n)) n).coveredPairs = 0 ∧
      (applyStateCoverage (some (noVoteCoverage n)) n).ratio = 0 ∧
      ∀ (raw : Option RawCoverage) (m : ℕ),
        (applyStateCoverage raw m).ratio =
          if (applyStateCoverage raw m).totalPairs = 0 then 0
          else (applyStateCoverage raw m).coveredPairs /
            (applyStateCoverage raw m).totalPairs := by
  have h2 : (2 : ℚ) ≤ (n : ℚ) := by exact_mod_cast hn
  have hpos : 0 < ((n : ℚ) * ((n : ℚ) - 1)) / 2 := by nlinarith
  have htp : (applyStateCoverage (some (noVoteCoverage n)) n).totalPairs
      = ((n : ℚ) * ((n : ℚ) - 1)) / 2 := rfl
  refine ⟨htp, by rw [htp]; exact hpos.ne', rfl, ?_, fun raw m => rfl⟩
  show (if (((n : ℚ) * ((n : ℚ) - 1)) / 2 : ℚ) = 0 then (0 : ℚ)
      else (0 : ℚ) / (((n : ℚ) * ((n : ℚ) - 1)) / 2)) = 0
  rw [if_neg hpos.ne']
  exact zero_div _

/-- Claim C7 (witness): the theorem at the concrete catalog size `n = 3`
(`totalPairs = 3`). -/
theorem coverage_no_votes_witness :
    2 ≤ 3 ∧
      ((applyStateCoverage (some (noVoteCoverage 3)) 3).totalPairs
          = ((3 : ℚ) * ((3 : ℚ) - 1)) / 2 ∧
        ¬ (applyStateCoverage (some (noVoteCoverage 3)) 3).totalPairs = 0 ∧
        (applyStateCoverage (some (noVoteCoverage 3)) 3).coveredPairs = 0 ∧
        (applyStateCoverage (some (noVoteCoverage 3)) 3).ratio = 0 ∧
        ∀ (raw : Option RawCoverage) (m : ℕ),
          (applyStateCoverage raw m).ratio =
            if (applyStateCoverage raw m).totalPairs = 0 then 0
            else (applyStateCoverage raw m).coveredPairs /
              (applyStateCoverage raw m).totalPairs) :=
  ⟨by decide, coverage_no_votes 3 (by decide)⟩

theorem normalizedOrder_perm (rhoMiss rhoFall : ℕ → ℕ) (titles rawOrder : List String)
    (hnd : titles.Nodup) (hnd2 : rawOrder.Nodup) :
    List.Perm (normalizedOrder rhoMiss rhoFall titles rawOrder) titles := by
  simp only [normalizedOrder]
  set order0 := rawOrder.filter (fun t => decide (t ∈ titles)) with ho0
  set missing := titles.filter (fun t => decide (¬ t ∈ order0)) with hmiss
  have hnd0 : order0.Nodup := hnd2.filter _
  have hpermA : List.Perm order0 (titles.filter (fun t => decide (t ∈ order0))) := by
    refine (List.perm_ext_iff_of_nodup hnd0 (hnd.filter _)).mpr ?_
    intro a
    rw [ho0]
    simp [List.mem_filter]
  have hkey : List.Perm (order0 ++ missing) titles := by
    have hbase := List.filter_append_perm (fun t => decide (t ∈ order0)) titles
    have hmiss2 : missing = titles.filter (fun t => !decide (t ∈ order0)) := by
      rw [hmiss]
      congr 1
      funext t
      simp [decide_not]
    rw [hmiss2]
    exact (List.Perm.append_right _ hpermA).trans hbase
  by_cases hm : missing.length ≠ 0
  · rw [if_pos hm]
    have hsh : List.Perm (shuffleArray rhoMiss missing) missing := shuffleArray_perm _ _
    have h1 : List.Perm (order0 ++ shuffleArray rhoMiss missing) (order0 ++ missing) :=
      List.Perm.append_left order0 hsh
    have h2 := h1.trans hkey
    by_cases h0 : (order0 ++ shuffleArray rhoMiss missing).length = 0
    · rw [if_pos h0]
      exact shuffleArray_perm _ _
    · rw [if_neg h0]
      exact h2
  · rw [if_neg hm]
    have hm0 : missing = [] := List.length_eq_zero.mp (by omega)
    have h2 : List.Perm order0 titles := by
      have h3 := hkey
      rw [hm0, List.append_nil] at h3
      exact h3
    by_cases h0 : order0.length = 0
    · rw [if_pos h0]
      exact shuffleArray_perm _ _
    · rw [if_neg h0]
      exact h2

theorem normalizeRawProgress_idx_le (rhoM rhoF : ℕ → ℕ) (titles : List String)
    (st : RawProgress) :
    (normalizeRawProgress rhoM rhoF titles st).idx
      ≤ (normalizeRawProgress rhoM rhoF titles st).order.length := by
  show (min (max (st.idx.getD 0) 0)
      ((normalizedOrder rhoM rhoF titles (st.order.getD [])).length : ℤ)).toNat
      ≤ (normalizedOrder rhoM rhoF titles (st.order.getD [])).length
  rw [Int.toNat_le]
  exact min_le_right _ _

theorem reset_progress_spec (rho : String → ℕ → ℕ) (rf : ℕ → ℕ) (s : SwipeState)
    (p : String) (hp : p ∈ s.swipePersons) :
    ∃ pr : Progress,
      lookupAssoc (resetSwipeProgressAll rho rf s).swipeProgress p = some pr ∧
      List.Perm pr.order (s.swipeSelectedMovies.map Movie.title) ∧ pr.idx = 0 := by
  refine ⟨Progress.mk 0 false (randomOrderTitles (rho p) s.swipeSelectedMovies), ?_, ?_, rfl⟩
  · show lookupAssoc (s.swipePersons.map
        (fun q => (q, Progress.mk 0 false (randomOrderTitles (rho q) s.swipeSelectedMovies)))) p
      = some (Progress.mk 0 false (randomOrderTitles (rho p) s.swipeSelectedMovies))
    exact lookupAssoc_map_self _ s.swipePersons p hp
  · exact shuffleArray_perm _ _

/-- Claim C8 (confirmed): after a session (re)start
(`resetSwipeProgressAll`), after item-list changes (`addSwipeMovie`,
`removeSwipeMovie`), and after normalizing a server-provided progress map
(`normalizeSwipeProgress`, assuming the incoming title list and stored order
have no duplicate titles), every participant's order is a permutation of the
current item titles and the cursor lies between 0 and the order length. -/
theorem swipe_order_invariant :
    (∀ (rho : String → ℕ → ℕ) (rf : ℕ → ℕ) (s : SwipeState), ∀ p ∈ s.swipePersons,
      ∃ pr : Progress,
        lookupAssoc (resetSwipeProgressAll rho rf s).swipeProgress p = some pr ∧
        List.Perm pr.order
          ((resetSwipeProgressAll rho rf s).swipeSelectedMovies.map Movie.title) ∧
        pr.idx = 0 ∧ pr.idx ≤ pr.order.length) ∧
    (∀ (sug : List (String × Movie)) (d : String) (rho : String → ℕ → ℕ) (rf : ℕ → ℕ)
        (s : SwipeState), ¬ d = "" →
      (∀ m ∈ s.swipeSelectedMovies, ¬ m.title = (suggestionInfo sug d).title) →
      ∀ p ∈ s.swipePersons,
        ∃ pr : Progress,
          lookupAssoc (addSwipeMovie sug d rho rf s).swipeProgress p = some pr ∧
          List.Perm pr.order
            ((addSwipeMovie sug d rho rf s).swipeSelectedMovies.map Movie.title) ∧
          pr.idx = 0 ∧ pr.idx ≤ pr.order.length) ∧
    (∀ (t : String) (rho : String → ℕ → ℕ) (rf : ℕ → ℕ) (s : SwipeState),
      ∀ p ∈ s.swipePersons,
        ∃ pr : Progress,
          lookupAssoc (removeSwipeMovie t rho rf s).swipeProgress p = some pr ∧
          List.Perm pr.order
            ((removeSwipeMovie t rho rf s).swipeSelectedMovies.map Movie.title) ∧
          pr.idx = 0 ∧ pr.idx ≤ pr.order.length) ∧
    (∀ (rhoM rhoF : String → ℕ → ℕ) (progress : List (String × RawProgress))
        (persons : List String) (titles : List String), titles.Nodup →
      ∀ p ∈ persons, (((lookupAssoc progress p).getD {}).order.getD []).Nodup →
        ∃ pr : Progress,
          lookupAssoc (normalizeSwipeProgress rhoM rhoF progress persons titles) p
            = some pr ∧
          List.Perm pr.order titles ∧ pr.idx ≤ pr.order.length) := by
  refine ⟨?_, ?_, ?_, ?_⟩
  · intro rho rf s p hp
    obtain ⟨pr, h1, h2, h3⟩ := reset_progress_spec rho rf s p hp
    exact ⟨pr, h1, h2, h3, by rw [h3]; exact Nat.zero_le _⟩
  · intro sug d rho rf s hd hnew p hp
    have hany : s.swipeSelectedMovies.any
        (fun m => decide (m.title = (suggestionInfo sug d).title)) = false := by
      rw [List.any_eq_false]
      intro m hm
      simpa using hnew m hm
    simp only [addSwipeMovie]
    rw [if_neg hd, hany]
    simp only [Bool.false_eq_true, if_false]
    obtain ⟨pr, h1, h2, h3⟩ := reset_progress_spec rho rf (addSwipeBase sug d s) p hp
    exact ⟨pr, h1, h2, h3, by rw [h3]; exact Nat.zero_le _⟩
  · intro t rho rf s p hp
    simp only [removeSwipeMovie]
    obtain ⟨pr, h1, h2, h3⟩ := reset_progress_spec rho rf (removeSwipeBase t s) p hp
    exact ⟨pr, h1, h2, h3, by rw [h3]; exact Nat.zero_le _⟩
  · intro rhoM rhoF progress persons titles hnd p hp hnd2
    refine ⟨normalizeRawProgress (rhoM p) (rhoF p) titles
      ((lookupAssoc progress p).getD {}), ?_, ?_, ?_⟩
    · exact lookupAssoc_map_self _ persons p hp
    · show List.Perm (normalizedOrder (rhoM p) (rhoF p) titles
        (((lookupAssoc progress p).getD {}).order.getD [])) titles
      exact normalizedOrder_perm _ _ _ _ hnd hnd2
    · exact normalizeRawProgress_idx_le _ _ _ _

/-- Claim C8 (witness): the normalization conjunct applied to a concrete
server progress map whose stored order has a vanished title and a stale
cursor. -/
theorem swipe_order_invariant_witness :
    (["X", "Y"] : List String).Nodup ∧ "p1" ∈ (["p1"] : List String) ∧
      (((lookupAssoc
            [("p1", ({ idx := some 5, order := some ["Y", "Q"] } : RawProgress))] "p1").getD
          {}).order.getD []).Nodup ∧
      ∃ pr : Progress,
        lookupAssoc (normalizeSwipeProgress rhoZero rhoZero
            [("p1", ({ idx := some 5, order := some ["Y", "Q"] } : RawProgress))]
            ["p1"] ["X", "Y"]) "p1" = some pr ∧
          List.Perm pr.order ["X", "Y"] ∧ pr.idx ≤ pr.order.length :=
  ⟨by decide, by decide, by decide,
    swipe_order_invariant.2.2.2 rhoZero rhoZero
      [("p1", ({ idx := some 5, order := some ["Y", "Q"] } : RawProgress))]
      ["p1"] ["X", "Y"] (by decide) "p1" (by decide) (by decide)⟩

theorem mem_foldl_addToSet :
    ∀ (l acc : List String) (t : String), t ∈ l.foldl addToSet acc ↔ t ∈ acc ∨ t ∈ l := by
  intro l
  induction l with
  | nil => simp
  | cons a l2 ih =>
    intro acc t
    rw [List.foldl_cons, ih, mem_addToSet]
    simp [List.mem_cons]
    tauto

theorem mem_jsSetOfList {l : List String} {t : String} : t ∈ jsSetOfList l ↔ t ∈ l := by
  unfold jsSetOfList
  rw [mem_foldl_addToSet]
  simp

theorem processMatchQueue_seen_count (s : SwipeState) (t : String) (h : t ∈ s.seenMatches) :
    t ∈ (processMatchQueue s).seenMatches ∧
      (processMatchQueue s).matchQueue.count t ≤ s.matchQueue.count t := by
  unfold processMatchQueue
  by_cases hm : s.matchModalOpen
  · rw [if_pos hm]
    exact ⟨h, le_refl _⟩
  · rw [if_neg hm]
    cases hq : s.matchQueue with
    | nil => exact ⟨h, le_of_eq (by rw [hq])⟩
    | cons a l =>
      show t ∈ (if a = "" then ({ s with matchQueue := l } : SwipeState)
          else showMatchModal a { s with matchQueue := l }).seenMatches ∧
        (if a = "" then ({ s with matchQueue := l } : SwipeState)
          else showMatchModal a { s with matchQueue := l }).matchQueue.count t
          ≤ (a :: l).count t
      by_cases ha : a = ""
      · rw [if_pos ha]
        refine ⟨h, ?_⟩
        show l.count t ≤ (a :: l).count t
        rw [List.count_cons]
        exact Nat.le_add_right _ _
      · rw [if_neg ha]
        unfold showMatchModal
        refine ⟨mem_addToSet.mpr (Or.inl h), ?_⟩
        show l.count t ≤ (a :: l).count t
        rw [List.count_cons]
        exact Nat.le_add_right _ _

theorem enqueue_seen_count (t2 : String) (s : SwipeState) (t : String)
    (h : t ∈ s.seenMatches) :
    t ∈ (enqueueMatchModal t2 s).seenMatches ∧
      (enqueueMatchModal t2 s).matchQueue.count t ≤ s.matchQueue.count t := by
  unfold enqueueMatchModal
  by_cases hc : t2 = "" ∨ t2 ∈ s.seenMatches
  · rw [if_pos hc]
    exact ⟨h, le_refl _⟩
  · rw [if_neg hc]
    have ht2 : ¬ t2 = t := by
      intro he
      subst he
      exact hc (Or.inr h)
    have hstep := processMatchQueue_seen_count { s with matchQueue := s.matchQueue ++ [t2] } t h
    refine ⟨hstep.1, le_trans hstep.2 ?_⟩
    show (s.matchQueue ++ [t2]).count t ≤ s.matchQueue.count t
    rw [List.count_append]
    have h1 : ([t2] : List String).count t = 0 := by
      rw [List.count_cons]
      simp [ht2, List.count_nil]
    rw [h1]
    exact Nat.le_of_eq (Nat.add_zero _)

theorem recordSwipeLike_seen_count (m p : String) (s : SwipeState) (t : String)
    (h : t ∈ s.seenMatches) :
    t ∈ (recordSwipeLike m p s).seenMatches ∧
      (recordSwipeLike m p s).matchQueue.count t ≤ s.matchQueue.count t := by
  simp only [recordSwipeLike]
  repeat' split
  all_goals
    first
      | exact ⟨h, le_refl _⟩
      | (refine enqueue_seen_count m _ t ?_; exact h)

theorem recordSwipeDislike_seen_count (m p : String) (s : SwipeState) (t : String)
    (h : t ∈ s.seenMatches) :
    t ∈ (recordSwipeDislike m p s).seenMatches ∧
      (recordSwipeDislike m p s).matchQueue.count t ≤ s.matchQueue.count t := by
  unfold recordSwipeDislike
  cases h0 : lookupAssoc s.swipeLikes m with
  | none => exact ⟨h, le_refl _⟩
  | some cur => exact ⟨h, le_refl _⟩

theorem closeMatchModal_seen_count (s : SwipeState) (t : String) (h : t ∈ s.seenMatches) :
    t ∈ (closeMatchModal s).seenMatches ∧
      (closeMatchModal s).matchQueue.count t ≤ s.matchQueue.count t :=
  processMatchQueue_seen_count { s with matchModalOpen := false } t h

theorem applySwipeProgress_queue_seen (p : String) (rf : ℕ → ℕ) (s : SwipeState) :
    (applySwipeProgress p rf s).seenMatches = s.seenMatches ∧
    (applySwipeProgress p rf s).matchQueue = s.matchQueue := by
  unfold applySwipeProgress
  by_cases hp : p = ""
  · rw [if_pos hp]
    exact ⟨rfl, rfl⟩
  · rw [if_neg hp]
    exact ⟨rfl, rfl⟩

theorem foldl_enqueue_seen_count (prev : List String) (ms : List String) (t : String) :
    ∀ s : SwipeState, t ∈ s.seenMatches →
      t ∈ (ms.foldl (fun acc m => if m ∈ prev then acc else enqueueMatchModal m acc)
          s).seenMatches ∧
        (ms.foldl (fun acc m => if m ∈ prev then acc else enqueueMatchModal m acc)
            s).matchQueue.count t ≤ s.matchQueue.count t := by
  induction ms with
  | nil =>
    intro s h
    exact ⟨h, le_refl _⟩
  | cons m ms2 ih =>
    intro s h
    rw [List.foldl_cons]
    by_cases hm : m ∈ prev
    · rw [if_pos hm]
      exact ih s h
    · rw [if_neg hm]
      have hstep := enqueue_seen_count m s t h
      have hrest := ih _ hstep.1
      exact ⟨hrest.1, le_trans hrest.2 hstep.2⟩

theorem applyServer_seen_count (st : RawSwipeState) (rhoM rhoF : String → ℕ → ℕ)
    (rf2 : ℕ → ℕ) (s : SwipeState) (t : String) (h : t ∈ s.seenMatches) :
    t ∈ (applySwipeStateFromServer st rhoM rhoF rf2 s).seenMatches ∧
      (applySwipeStateFromServer st rhoM rhoF rf2 s).matchQueue.count t
        ≤ s.matchQueue.count t := by
  have hfold := foldl_enqueue_seen_count s.swipeMatches
    ((serverBase st s).swipeMatches) t (serverBase st s) h
  simp only [applySwipeStateFromServer]
  rw [(applySwipeProgress_queue_seen _ _ _).1, (applySwipeProgress_queue_seen _ _ _).2]
  constructor
  · exact mem_jsSetOfList.mpr (List.mem_append.mpr (Or.inl hfold.1))
  · exact hfold.2

theorem stepEvent_seen_count (e : SwipeEvent) (s : SwipeState) (t : String)
    (h : t ∈ s.seenMatches) :
    t ∈ (stepEvent e s).seenMatches ∧
      (stepEvent e s).matchQueue.count t ≤ s.matchQueue.count t := by
  cases e with
  | like m p => exact recordSwipeLike_seen_count m p s t h
  | dislike m p => exact recordSwipeDislike_seen_count m p s t h
  | applyServer st rhoM rhoF rf2 => exact applyServer_seen_count st rhoM rhoF rf2 s t h
  | closeModal => exact closeMatchModal_seen_count s t h
  | enqueue t2 => exact enqueue_seen_count t2 s t h

/-- C9 counterexample: the claim says a match notification is enqueued at most
once per session. With one participant who already likes "Y" and a match modal
currently open (so the queue is not drained and "Y" never reaches the seen
set), two successive like decisions on "Y" each pass the `>=` threshold test in
`recordSwipeLike` and each append "Y" to the match queue: the same title is
enqueued twice in one session. -/
theorem match_enqueued_twice_cex :
    (runEvents [SwipeEvent.like "Y" "p1", SwipeEvent.like "Y" "p1"] swipeCexC9).matchQueue
      = ["Y", "Y"] := by decide

/-- C9 (amended): deduplication is only guaranteed once a title has entered the
session-wide seen set, which happens when its modal is first shown, not when it
is enqueued. From then on the guard in `enqueueMatchModal` holds: after any
sequence of like/dislike decisions, server-state applications, queue
processing and modal closes, the title stays in the seen set and the number of
queued notifications for it never increases. -/
theorem seen_title_never_reenqueued (s : SwipeState) (t : String)
    (evs : List SwipeEvent) (h : t ∈ s.seenMatches) :
    t ∈ (runEvents evs s).seenMatches ∧
      (runEvents evs s).matchQueue.count t ≤ s.matchQueue.count t := by
  induction evs generalizing s with
  | nil => exact ⟨h, le_refl _⟩
  | cons e rest ih =>
    have hstep := stepEvent_seen_count e s t h
    have hrest := ih (stepEvent e s) hstep.1
    exact ⟨hrest.1, le_trans hrest.2 hstep.2⟩

/-- C9 witness: "X" is already in the seen set of the concrete state, and a
later like decision that triggers a match for "Y" leaves "X" seen and does not
enqueue "X". -/
theorem seen_title_never_reenqueued_witness :
    "X" ∈ swipeCexC9.seenMatches ∧
      ("X" ∈ (runEvents [SwipeEvent.like "Y" "p1"] swipeCexC9).seenMatches ∧
        (runEvents [SwipeEvent.like "Y" "p1"] swipeCexC9).matchQueue.count "X"
          ≤ swipeCexC9.matchQueue.count "X") :=
  ⟨by decide, seen_title_never_reenqueued swipeCexC9 "X" [SwipeEvent.like "Y" "p1"] (by decide)⟩
